import Mathlib

/-!
Verification of the Enclave Markets websocket client (`enclave/wsclient.py`).

The development shallowly embeds the client: the stateful parts
(`_pending_subscriptions`, `_callbacks`, `_client`, `_stop`) become an
explicit `ClientState` record threaded through pure step functions; the
network becomes a scripted transport (each connection attempt of the
`async for ws in websockets.connect(...)` loop is described by an
`Attempt` record); side effects (hook invocations, frames written to the
socket) are collected in an explicit event trace.  Library calls made by
the source (`json.loads`/`json.dumps`, `hmac`/`hashlib.sha256`, UTF-8
encoding, `str(int)`) are modelled concretely below, faithful to the
Python standard library's behaviour on the inputs the client exchanges.
-/

namespace Enclave

/-! ## Bytes, UTF-8, decimal rendering of integers -/

/-- UTF-8 encoding of one unicode scalar value, as `str.encode()` produces.
Bytes are `Nat`s below 256. -/
def utf8Bytes (c : Char) : List Nat :=
  let n := c.toNat
  if n < 128 then [n]
  else if n < 2048 then [192 ||| (n >>> 6), 128 ||| (n &&& 63)]
  else if n < 65536 then
    [224 ||| (n >>> 12), 128 ||| ((n >>> 6) &&& 63), 128 ||| (n &&& 63)]
  else
    [240 ||| (n >>> 18), 128 ||| ((n >>> 12) &&& 63),
     128 ||| ((n >>> 6) &&& 63), 128 ||| (n &&& 63)]

/-- `s.encode()`: the UTF-8 bytes of a string. -/
def strBytes (s : String) : List Nat :=
  s.data.foldr (fun c acc => utf8Bytes c ++ acc) []

/-- Decimal digits of a positive natural, most significant first, with an
accumulator; `fuel` bounds the recursion (any `fuel ≥ n` is exact). -/
def natDigitsAux : Nat → Nat → List Char → List Char
  | 0, _, acc => acc
  | _, 0, acc => acc
  | fuel + 1, n, acc =>
    natDigitsAux fuel (n / 10) (Char.ofNat (48 + n % 10) :: acc)

/-- Python's `str(n)` for a nonnegative integer `n`. -/
def pyStr (n : Nat) : String :=
  if n = 0 then "0" else ⟨natDigitsAux n n []⟩

/-! ## SHA-256 (FIPS 180-4), as `hashlib.sha256` computes it

Words are `Nat`s kept below `2^32` by reducing modulo `4294967296` after
every arithmetic step. -/

def wmod (x : Nat) : Nat := x % 4294967296

def rotr (n x : Nat) : Nat := wmod ((x >>> n) ||| (x <<< (32 - n)))

def bsig0 (x : Nat) : Nat := rotr 2 x ^^^ rotr 13 x ^^^ rotr 22 x
def bsig1 (x : Nat) : Nat := rotr 6 x ^^^ rotr 11 x ^^^ rotr 25 x
def ssig0 (x : Nat) : Nat := rotr 7 x ^^^ rotr 18 x ^^^ (x >>> 3)
def ssig1 (x : Nat) : Nat := rotr 17 x ^^^ rotr 19 x ^^^ (x >>> 10)

def chf (x y z : Nat) : Nat := (x &&& y) ^^^ ((x ^^^ 4294967295) &&& z)
def majf (x y z : Nat) : Nat := (x &&& y) ^^^ (x &&& z) ^^^ (y &&& z)

/-- The eight working variables of the SHA-256 compression function. -/
structure Sha8 where
  a : Nat
  b : Nat
  c : Nat
  d : Nat
  e : Nat
  f : Nat
  g : Nat
  h : Nat
deriving Repr, DecidableEq

def shaInit : Sha8 :=
  ⟨1779033703, 3144134277, 1013904242, 2773480762,
   1359893119, 2600822924, 528734635, 1541459225⟩

/-- The 64 round constants. -/
def shaK : List Nat :=
  [1116352408, 1899447441, 3049323471, 3921009573, 961987163, 1508970993,
   2453635748, 2870763221, 3624381080, 310598401, 607225278, 1426881987,
   1925078388, 2162078206, 2614888103, 3248222580, 3835390401, 4022224774,
   264347078, 604807628, 770255983, 1249150122, 1555081692, 1996064986,
   2554220882, 2821834349, 2952996808, 3210313671, 3336571891, 3584528711,
   113926993, 338241895, 666307205, 773529912, 1294757372, 1396182291,
   1695183700, 1986661051, 2177026350, 2456956037, 2730485921, 2820302411,
   3259730800, 3345764771, 3516065817, 3600352804, 4094571909, 275423344,
   430227734, 506948616, 659060556, 883997877, 958139571, 1322822218,
   1537002063, 1747873779, 1955562222, 2024104815, 2227730452, 2361852424,
   2428436474, 2756734187, 3204031479, 3329325298]

/-- One step of the message-schedule extension; `acc` holds the schedule so
far, newest word first. -/
def schedStep (acc : List Nat) : List Nat :=
  let w2 := acc.getD 1 0
  let w7 := acc.getD 6 0
  let w15 := acc.getD 14 0
  let w16 := acc.getD 15 0
  wmod (ssig1 w2 + w7 + ssig0 w15 + w16) :: acc

def iterN {α : Type} (f : α → α) : Nat → α → α
  | 0, a => a
  | n + 1, a => iterN f n (f a)

/-- The 64-word message schedule of one 16-word block. -/
def schedule (block : List Nat) : List Nat :=
  (iterN schedStep 48 block.reverse).reverse

/-- One round of the compression function. -/
def shaRound (s : Sha8) (kw : Nat × Nat) : Sha8 :=
  let t1 := wmod (s.h + bsig1 s.e + chf s.e s.f s.g + kw.1 + kw.2)
  let t2 := wmod (bsig0 s.a + majf s.a s.b s.c)
  ⟨wmod (t1 + t2), s.a, s.b, s.c, wmod (s.d + t1), s.e, s.f, s.g⟩

def add8 (x y : Sha8) : Sha8 :=
  ⟨wmod (x.a + y.a), wmod (x.b + y.b), wmod (x.c + y.c), wmod (x.d + y.d),
   wmod (x.e + y.e), wmod (x.f + y.f), wmod (x.g + y.g), wmod (x.h + y.h)⟩

/-- Process one 512-bit block. -/
def shaCompress (st : Sha8) (block : List Nat) : Sha8 :=
  add8 st ((shaK.zip (schedule block)).foldl shaRound st)

/-- Big-endian 8-byte encoding of the bit length. -/
def be8 (n : Nat) : List Nat :=
  [(n >>> 56) % 256, (n >>> 48) % 256, (n >>> 40) % 256, (n >>> 32) % 256,
   (n >>> 24) % 256, (n >>> 16) % 256, (n >>> 8) % 256, n % 256]

/-- SHA-256 padding: append `0x80`, zeros to 56 mod 64, then the 64-bit
big-endian bit length. -/
def shaPad (m : List Nat) : List Nat :=
  m ++ 128 :: List.replicate ((119 - m.length % 64) % 64) 0 ++ be8 (8 * m.length)

/-- Group bytes into big-endian 32-bit words (the padded input's length is a
multiple of 4). -/
def toWords : List Nat → List Nat
  | a :: b :: c :: d :: rest =>
    ((a <<< 24) ||| (b <<< 16) ||| (c <<< 8) ||| d) :: toWords rest
  | _ => []

/-- Group words into 16-word blocks; `fuel` bounds the recursion. -/
def toBlocksAux : Nat → List Nat → List (List Nat)
  | 0, _ => []
  | _, [] => []
  | fuel + 1, ws => ws.take 16 :: toBlocksAux fuel (ws.drop 16)

def toBlocks (ws : List Nat) : List (List Nat) := toBlocksAux ws.length ws

/-- The four big-endian bytes of a 32-bit word. -/
def wordBytes (w : Nat) : List Nat :=
  [(w >>> 24) % 256, (w >>> 16) % 256, (w >>> 8) % 256, w % 256]

def digestBytes (s : Sha8) : List Nat :=
  wordBytes s.a ++ wordBytes s.b ++ wordBytes s.c ++ wordBytes s.d ++
  wordBytes s.e ++ wordBytes s.f ++ wordBytes s.g ++ wordBytes s.h

/-- `hashlib.sha256(m).digest()` on a byte list. -/
def sha256 (m : List Nat) : List Nat :=
  digestBytes ((toBlocks (toWords (shaPad m))).foldl shaCompress shaInit)

/-! ## HMAC (RFC 2104) and hex digests, as `hmac.new(...).hexdigest()` -/

/-- `hmac.new(key, msg, hashlib.sha256).digest()`. -/
def hmacSha256 (key msg : List Nat) : List Nat :=
  let k0 := if 64 < key.length then sha256 key else key
  let kp := k0 ++ List.replicate (64 - k0.length) 0
  sha256 ((kp.map (fun b => b ^^^ 92)) ++
          sha256 ((kp.map (fun b => b ^^^ 54)) ++ msg))

def hexChar (n : Nat) : Char :=
  "0123456789abcdef".data.getD n '0'

def hexByte (b : Nat) : List Char := [hexChar (b / 16), hexChar (b % 16)]

def bytesToHex (bs : List Nat) : List Char :=
  bs.foldr (fun b acc => hexByte b ++ acc) []

/-- `hmac.new(secret.encode(), msg.encode(), hashlib.sha256).hexdigest()`. -/
def hmacSha256Hex (secret msg : String) : String :=
  ⟨bytesToHex (hmacSha256 (strBytes secret) (strBytes msg))⟩

/-! ## JSON values

The client parses inbound frames with
`json.loads(msg, parse_float=decimal.Decimal, parse_int=decimal.Decimal)`,
so every JSON number literal becomes an exact `decimal.Decimal`.  A number
is therefore modelled as a signed mantissa together with a power-of-ten
exponent: the literal's exact value is `mantissa * 10 ^ exponent`, with no
binary rounding anywhere. -/

inductive Json where
  | null : Json
  | bool (b : Bool) : Json
  | str (s : String) : Json
  | num (mantissa : Int) (exponent : Int) : Json
  | arr (items : List Json) : Json
  | obj (members : List (String × Json)) : Json
deriving Repr

/-- Lookup in a parsed JSON object (Python `dict` indexing; parsed objects
hold each key at most once). -/
def jlookup (l : List (String × Json)) (k : String) : Option Json :=
  match l with
  | [] => none
  | (k', v) :: rest => if k' = k then some v else jlookup rest k

/-- The exact rational value of a parsed number. -/
def numVal (m e : Int) : ℚ := (m : ℚ) * 10 ^ e

/-! ## Parsing (`json.loads`)

A recursive-descent parser over the character list.  Recursion into object
members, array items and nested values is bounded by a fuel argument;
`input length + 1` fuel is always sufficient because every recursive call
consumes at least one character. -/

def isWsChar (c : Char) : Bool := c = ' ' ∨ c = '\t' ∨ c = '\n' ∨ c = '\r'

def skipWs : List Char → List Char
  | [] => []
  | c :: rest => if isWsChar c then skipWs rest else c :: rest

def isDigitCh (c : Char) : Bool := '0' ≤ c ∧ c ≤ '9'

def hexVal (c : Char) : Option Nat :=
  if '0' ≤ c ∧ c ≤ '9' then some (c.toNat - 48)
  else if 'a' ≤ c ∧ c ≤ 'f' then some (c.toNat - 87)
  else if 'A' ≤ c ∧ c ≤ 'F' then some (c.toNat - 70)
  else none

/-- Body of a JSON string after the opening quote: returns the decoded
characters and the remainder after the closing quote.  Escapes follow
Python's `json` module; a surrogate pair of `\uXXXX` escapes decodes to one
character.  (A *lone* surrogate escape, which Python would keep as an
unpaired surrogate code unit, is rejected here since Lean characters are
scalar values; no frame in the verified claims contains one.)  Raw control
characters are rejected (`strict=True`). -/
def parseStringBody : List Char → Option (List Char × List Char)
  | [] => none
  | '"' :: rest => some ([], rest)
  | '\\' :: 'u' :: h1 :: h2 :: h3 :: h4 :: rest =>
    (match hexVal h1, hexVal h2, hexVal h3, hexVal h4 with
     | some a, some b, some c, some d =>
       let n := ((a * 16 + b) * 16 + c) * 16 + d
       if 55296 ≤ n ∧ n < 56320 then
         -- high surrogate: must be followed by a low surrogate escape
         match rest with
         | '\\' :: 'u' :: g1 :: g2 :: g3 :: g4 :: rest2 =>
           (match hexVal g1, hexVal g2, hexVal g3, hexVal g4 with
            | some a2, some b2, some c2, some d2 =>
              let n2 := ((a2 * 16 + b2) * 16 + c2) * 16 + d2
              if 56320 ≤ n2 ∧ n2 < 57344 then
                (parseStringBody rest2).map (fun p =>
                  (Char.ofNat (65536 + (n - 55296) * 1024 + (n2 - 56320)) :: p.1, p.2))
              else none
            | _, _, _, _ => none)
         | _ => none
       else if 56320 ≤ n ∧ n < 57344 then none
       else (parseStringBody rest).map (fun p => (Char.ofNat n :: p.1, p.2))
     | _, _, _, _ => none)
  | '\\' :: e :: rest =>
    (let dec : Option Char :=
      match e with
      | '"' => some '"'
      | '\\' => some '\\'
      | '/' => some '/'
      | 'b' => some (Char.ofNat 8)
      | 'f' => some (Char.ofNat 12)
      | 'n' => some '\n'
      | 'r' => some (Char.ofNat 13)
      | 't' => some '\t'
      | _ => none
    dec.bind (fun c => (parseStringBody rest).map (fun p => (c :: p.1, p.2))))
  | c :: rest =>
    if c.toNat < 32 then none
    else (parseStringBody rest).map (fun p => (c :: p.1, p.2))

/-- Longest digit prefix. -/
def spanDigits : List Char → List Char × List Char
  | [] => ([], [])
  | c :: rest =>
    if isDigitCh c then
      let p := spanDigits rest
      (c :: p.1, p.2)
    else ([], c :: rest)

def digitsToNat (ds : List Char) : Nat :=
  ds.foldl (fun acc c => acc * 10 + (c.toNat - 48)) 0

/-- The optional exponent part `([eE][+-]?[0-9]+)?`: returns the exponent
(0 when absent) and the remainder; `none` when an `e`/`E` is not followed
by digits, which makes the whole literal invalid. -/
def parseExp (cs : List Char) : Option (Int × List Char) :=
  match cs with
  | 'e' :: '+' :: rest =>
    let p := spanDigits rest
    if p.1 = [] then none else some ((digitsToNat p.1 : Int), p.2)
  | 'e' :: '-' :: rest =>
    let p := spanDigits rest
    if p.1 = [] then none else some (-(digitsToNat p.1 : Int), p.2)
  | 'e' :: rest =>
    let p := spanDigits rest
    if p.1 = [] then none else some ((digitsToNat p.1 : Int), p.2)
  | 'E' :: '+' :: rest =>
    let p := spanDigits rest
    if p.1 = [] then none else some ((digitsToNat p.1 : Int), p.2)
  | 'E' :: '-' :: rest =>
    let p := spanDigits rest
    if p.1 = [] then none else some (-(digitsToNat p.1 : Int), p.2)
  | 'E' :: rest =>
    let p := spanDigits rest
    if p.1 = [] then none else some ((digitsToNat p.1 : Int), p.2)
  | _ => some (0, cs)

/-- An unsigned JSON number `(0|[1-9][0-9]*)(\.[0-9]+)?([eE][+-]?[0-9]+)?`,
decoded exactly: the result `(m, e)` denotes `m * 10 ^ e`, which is exactly
the value `decimal.Decimal` gives the literal. -/
def parsePosNumber (cs : List Char) : Option ((Int × Int) × List Char) :=
  let ipp := spanDigits cs
  if ipp.1 = [] then none
  else if 1 < ipp.1.length ∧ ipp.1.headD '0' = '0' then none -- no leading zeros
  else
    match ipp.2 with
    | '.' :: rest2 =>
      let fpp := spanDigits rest2
      if fpp.1 = [] then none  -- a dot must be followed by digits
      else
        (parseExp fpp.2).map (fun ep =>
          (((digitsToNat (ipp.1 ++ fpp.1) : Int), ep.1 - (fpp.1.length : Int)),
           ep.2))
    | cs2 => (parseExp cs2).map (fun ep =>
        (((digitsToNat ipp.1 : Int), ep.1), ep.2))

/-- A JSON number with its optional leading minus sign. -/
def parseNumber (cs : List Char) : Option ((Int × Int) × List Char) :=
  match cs with
  | '-' :: rest => (parsePosNumber rest).map (fun p => ((-p.1.1, p.1.2), p.2))
  | _ => parsePosNumber cs

/-- Insert a member into a parsed object: a duplicate key overwrites the
earlier value in place, as Python's dict building does. -/
def objInsert (l : List (String × Json)) (k : String) (v : Json) :
    List (String × Json) :=
  match l with
  | [] => [(k, v)]
  | (k', v') :: rest =>
    if k' = k then (k, v) :: rest else (k', v') :: objInsert rest k v

/-- What the recursive-descent parser is currently parsing: one value, the
members of an object after its `\x7b` (with `afterMember` for the
separator-or-close decision after one member), or the items of an array
after its `[` (with `afterItem` likewise).  A single mode-indexed function
keeps the recursion structural in the fuel, so the kernel can evaluate
it. -/
inductive PMode where
  | val
  | members (acc : List (String × Json))
  | afterMember (acc : List (String × Json))
  | items (acc : List Json)
  | afterItem (acc : List Json)

/-- The parser core.  In the container modes the accumulated container is
returned already wrapped as a `Json` value. -/
def parseCore : Nat → PMode → List Char → Option (Json × List Char)
  | 0, _, _ => none
  | fuel + 1, .val, cs =>
    (match skipWs cs with
     | '"' :: rest => (parseStringBody rest).map (fun p => (.str ⟨p.1⟩, p.2))
     | '\x7b' :: rest =>
       (match skipWs rest with
        | '\x7d' :: rest2 => some (.obj [], rest2)
        | cs2 => parseCore fuel (.members []) cs2)
     | '[' :: rest =>
       (match skipWs rest with
        | ']' :: rest2 => some (.arr [], rest2)
        | cs2 => parseCore fuel (.items []) cs2)
     | 't' :: 'r' :: 'u' :: 'e' :: rest => some (.bool true, rest)
     | 'f' :: 'a' :: 'l' :: 's' :: 'e' :: rest => some (.bool false, rest)
     | 'n' :: 'u' :: 'l' :: 'l' :: rest => some (.null, rest)
     | cs1 => (parseNumber cs1).map (fun p => (.num p.1.1 p.1.2, p.2)))
  | fuel + 1, .members acc, cs =>
    (match skipWs cs with
     | '"' :: rest =>
       (parseStringBody rest).bind (fun kp =>
         match skipWs kp.2 with
         | ':' :: rest2 =>
           (parseCore fuel .val rest2).bind (fun vp =>
             parseCore fuel (.afterMember (objInsert acc ⟨kp.1⟩ vp.1))
               (skipWs vp.2))
         | _ => none)
     | _ => none)
  | fuel + 1, .afterMember acc, cs =>
    (match cs with
     | ',' :: rest => parseCore fuel (.members acc) rest
     | '\x7d' :: rest => some (.obj acc, rest)
     | _ => none)
  | fuel + 1, .items acc, cs =>
    (parseCore fuel .val cs).bind (fun vp =>
      parseCore fuel (.afterItem (vp.1 :: acc)) (skipWs vp.2))
  | fuel + 1, .afterItem acc, cs =>
    (match cs with
     | ',' :: rest => parseCore fuel (.items acc) rest
     | ']' :: rest => some (.arr acc.reverse, rest)
     | _ => none)

/-- One JSON value (with surrounding whitespace skipped on the left). -/
def parseValue (fuel : Nat) (cs : List Char) : Option (Json × List Char) :=
  parseCore fuel .val cs

/-- `json.loads(s, parse_float=Decimal, parse_int=Decimal)`: the whole
input must be one JSON value plus whitespace.  Twice the input length in
fuel always suffices: every parser step either consumes a character or
follows one that did.  (Python additionally accepts the non-JSON literals
`NaN`/`Infinity` as binary floats; they are outside this model, and no
conforming server frame contains them.) -/
def pyJsonLoads (s : String) : Option Json :=
  match parseValue (2 * s.data.length + 2) s.data with
  | some (v, rest) => if skipWs rest = [] then some v else none
  | none => none

/-! ## Serialization (`json.dumps` with its defaults) -/

def hexCharUp? (n : Nat) : Char := hexChar n  -- json.dumps emits lowercase hex

/-- `\uXXXX` escape (with a surrogate pair above the BMP), as
`json.dumps`'s `ensure_ascii=True` produces. -/
def uEscape (n : Nat) : List Char :=
  let quad := fun (m : Nat) =>
    ['\\', 'u', hexChar (m / 4096 % 16), hexChar (m / 256 % 16),
     hexChar (m / 16 % 16), hexChar (m % 16)]
  if n < 65536 then quad n
  else quad (55296 + (n - 65536) / 1024) ++ quad (56320 + (n - 65536) % 1024)

/-- How `json.dumps` renders one character inside a string literal. -/
def pyEscChar (c : Char) : List Char :=
  if c = '"' then ['\\', '"']
  else if c = '\\' then ['\\', '\\']
  else if c = '\n' then ['\\', 'n']
  else if c = '\t' then ['\\', 't']
  else if c.toNat = 13 then ['\\', 'r']
  else if c.toNat = 8 then ['\\', 'b']
  else if c.toNat = 12 then ['\\', 'f']
  else if c.toNat < 32 ∨ 127 ≤ c.toNat then uEscape c.toNat
  else [c]

def dumpString (s : String) : List Char :=
  '"' :: s.data.foldr (fun c acc => pyEscChar c ++ acc) ['"']

-- `json.dumps` with default separators `", "` and `": "`.  (Numbers and
-- arrays never occur in the frames the client serializes; they are rendered
-- for totality only.)
mutual
def dumpJson : Json → List Char
  | .null => "null".data
  | .bool true => "true".data
  | .bool false => "false".data
  | .str s => dumpString s
  | .num m e => (toString m).data ++ 'e' :: (toString e).data
  | .arr items => '[' :: dumpItems items ++ [']']
  | .obj members => '\x7b' :: dumpMembers members ++ ['\x7d']

def dumpItems : List Json → List Char
  | [] => []
  | [x] => dumpJson x
  | x :: rest => dumpJson x ++ ',' :: ' ' :: dumpItems rest

def dumpMembers : List (String × Json) → List Char
  | [] => []
  | [(k, v)] => dumpString k ++ ':' :: ' ' :: dumpJson v
  | (k, v) :: rest => dumpString k ++ ':' :: ' ' :: dumpJson v ++ ',' :: ' ' :: dumpMembers rest
end

def pyJsonDumps (j : Json) : String := ⟨dumpJson j⟩

/-! ## The client's frames and constants (`wsclient.py` top level) -/

def LOGIN_STR : String := "enclave_ws_login"

/-- `SUBSCRIBE.format(channel=channel)` (note the space after the comma,
exactly as in the source template). -/
def SUBSCRIBE (channel : String) : String :=
  "\x7b\"op\":\"subscribe\", \"channel\":\"" ++ channel ++ "\"\x7d"

def UNSUBSCRIBE (channel : String) : String :=
  "\x7b\"op\":\"unsubscribe\", \"channel\":\"" ++ channel ++ "\"\x7d"

/-- `WebSocketClient._auth_message`, with the wall clock passed in: the
source reads `unix_ms = str(int(time.time() * 1_000))` and then signs
`unix_ms + LOGIN_STR` with the api secret. -/
def auth_message (key secret : String) (unix_ms : Nat) : String :=
  let unixMs := pyStr unix_ms
  let message := unixMs ++ LOGIN_STR
  let auth := hmacSha256Hex secret message
  pyJsonDumps (.obj [("op", .str "login"),
                     ("args", .obj [("key", .str key), ("time", .str unixMs),
                                    ("sign", .str auth)])])

/-! ## Client state

Callbacks are opaque function values in the source; they are modelled as
numeric identifiers, with callback behaviour (whether a given callback
raises on a given message) supplied as a parameter `beh` where dispatch
needs it.  Dicts become association lists in insertion order, which is
exactly Python's dict iteration order. -/

/-- The id of the `defaultdict`'s default callback `noop`. -/
def noopCb : Nat := 0

/-- Python dict assignment `d[k] = v`: updates an existing key in place
(keeping its position) or appends a new one. -/
def dictInsert (l : List (String × Nat)) (k : String) (v : Nat) :
    List (String × Nat) :=
  match l with
  | [] => [(k, v)]
  | (k', v') :: rest =>
    if k' = k then (k, v) :: rest else (k', v') :: dictInsert rest k v

/-- Python `del d[k]`. -/
def dictRemove (l : List (String × Nat)) (k : String) : List (String × Nat) :=
  match l with
  | [] => []
  | (k', v') :: rest =>
    if k' = k then rest else (k', v') :: dictRemove rest k

def dictGet (l : List (String × Nat)) (k : String) : Option Nat :=
  match l with
  | [] => none
  | (k', v) :: rest => if k' = k then some v else dictGet rest k

/-- `defaultdict.__getitem__`: a missing key is inserted with the default
value (this mutation is what claim C10 is about). -/
def dictGetDefault (l : List (String × Nat)) (k : String) (dflt : Nat) :
    Nat × List (String × Nat) :=
  match dictGet l k with
  | some v => (v, l)
  | none => (dflt, l ++ [(k, dflt)])

/-- The mutable fields of `WebSocketClient`: `_pending_subscriptions`,
`_callbacks`, `_client` (`some ()` once `_auth` has published a session)
and `_stop`. -/
structure ClientState where
  pending : List (String × Nat)
  callbacks : List (String × Nat)
  client : Option Unit
  stop : Bool
deriving Repr, DecidableEq

def initClient : ClientState := ⟨[], [], none, false⟩

/-- Exceptions the modelled operations can let escape. -/
inductive PyErr where
  | runtimeNotSet      -- RuntimeError("Client not set.") from the `ws` property
  | connectionClosed   -- websockets.ConnectionClosed
deriving Repr, DecidableEq

/-- Observable effects: hook invocations and frames written to the
socket.  `sentAuth` is the login frame sent inside `_auth`; `sent` is a
frame sent by `subscribe_callback`/`unsubscribe_callback`;
`invoked cb m` records callback `cb` being invoked with the parse of the
inbound frame `m`. -/
inductive Event where
  | onConnect
  | onAuth
  | onDisconnect
  | onExit
  | onError
  | sent (frame : String)
  | sentAuth (frame : String)
  | invoked (cb : Nat) (msg : String)
  | wsClosed
deriving Repr, DecidableEq

/-- Outcome of one `ws.send` on the live transport, scripted from outside. -/
inductive SendOutcome where
  | ok
  | connClosed   -- the send raises websockets.ConnectionClosed
  | otherErr     -- the send raises some other exception
deriving Repr, DecidableEq

/-! ## Registry operations (`wsclient.py` lines 196-255) -/

/-- `add_pending_subscription` (lines 202-206): records the desired
subscription without touching the network. -/
def add_pending_subscription (channel : String) (callback : Nat)
    (st : ClientState) : ClientState :=
  { st with pending := dictInsert st.pending channel callback }

/-- `subscribe_callback` (lines 208-233).  The registry mutations happen
first (before the lock); then, inside the lock, `self.ws.send(...)` runs
in a `try`: with no session the `ws` property's RuntimeError is caught by
the generic handler (log + `on_error` + `return False`); a
`ConnectionClosed` from the send is re-raised; any other send error is
caught likewise.  Returns (result, state, events). -/
def subscribe_callback (outcome : SendOutcome) (channel : String)
    (callback : Nat) (st : ClientState) :
    Except PyErr Bool × ClientState × List Event :=
  let st1 := add_pending_subscription channel callback st
  let st2 := { st1 with callbacks := dictInsert st1.callbacks channel callback }
  match st2.client with
  | none => (.ok false, st2, [.onError])
  | some _ =>
    match outcome with
    | .ok => (.ok true, st2, [.sent (SUBSCRIBE channel)])
    | .connClosed => (.error .connectionClosed, st2, [])
    | .otherErr => (.ok false, st2, [.onError])

/-- `unsubscribe_callback` (lines 235-255).  An unregistered channel takes
the early `return True`; otherwise the callback entry is deleted (under
the lock) and an unsubscribe frame is sent with the same error handling as
`subscribe_callback`.  Note: `_pending_subscriptions` is never touched. -/
def unsubscribe_callback (outcome : SendOutcome) (channel : String)
    (st : ClientState) : Except PyErr Bool × ClientState × List Event :=
  match dictGet st.callbacks channel with
  | none => (.ok true, st, [])
  | some _ =>
    let st1 := { st with callbacks := dictRemove st.callbacks channel }
    match st1.client with
    | none => (.ok false, st1, [.onError])
    | some _ =>
      match outcome with
      | .ok => (.ok true, st1, [.sent (UNSUBSCRIBE channel)])
      | .connClosed => (.error .connectionClosed, st1, [])
      | .otherErr => (.ok false, st1, [.onError])

/-- `close` (lines 196-200): under the lock, set `_stop` and then close
`self.ws`.  The stop flag is set *before* the `ws` property is read, so a
call made before any session exists still sets `_stop` but lets the
property's RuntimeError escape. -/
def close (st : ClientState) : Except PyErr Unit × ClientState × List Event :=
  let st1 := { st with stop := true }
  match st1.client with
  | none => (.error .runtimeNotSet, st1, [])
  | some _ => (.ok (), st1, [.wsClosed])

/-! ## Message dispatch (`_handle_messages_forever`, lines 175-194) -/

/-- Does the parsed value have `type == "update"`?  (A non-string `type`
compares unequal to `"update"` in Python without raising.) -/
def typeIsUpdate (fields : List (String × Json)) : Bool :=
  match jlookup fields "type" with
  | some (.str s) => s == "update"
  | _ => false

/-- Processing of one received text frame (the body of the `while` loop,
lines 182-194): parse with `parse_float=parse_int=Decimal`; any exception
(decode error, missing key, non-dict payload, raising callback) is caught,
logged, reported through `on_error`, and the loop continues.  `beh cb j`
tells whether callback `cb` raises when invoked on message `j`. -/
def processMsg (beh : Nat → Json → Bool) (m : String) (st : ClientState) :
    ClientState × List Event :=
  match pyJsonLoads m with
  | none => (st, [.onError])                    -- json.JSONDecodeError
  | some j =>
    match j with
    | .obj fields =>
      match jlookup fields "type" with
      | none => (st, [.onError])                -- KeyError("type")
      | some tv =>
        if (match tv with | .str s => s == "update" | _ => false) then
          match jlookup fields "channel" with
          | none => (st, [.onError])            -- KeyError("channel")
          | some (.str channel) =>
            let p := dictGetDefault st.callbacks channel noopCb
            let st1 := { st with callbacks := p.2 }
            if beh p.1 j then (st1, [.invoked p.1 m, .onError])
            else (st1, [.invoked p.1 m])
          | some _ =>
            -- a non-string channel value indexes the defaultdict with a
            -- non-string key and invokes the inserted noop; no string-keyed
            -- API call can ever observe that entry, so the state is kept
            (st, [.invoked noopCb m])
        else (st, [])                           -- not an update: ignored
    | _ => (st, [.onError])                     -- msg_json["type"] TypeError

/-- The receive loop: processes the scripted inbound frames in order.  The
returned flag is true when the loop exited normally through its
`while not self._stop` guard (rather than by the next `recv` raising
`ConnectionClosed` once the script is exhausted). -/
def handleMsgs (beh : Nat → Json → Bool) :
    List String → ClientState → ClientState × List Event × Bool
  | [], st => (st, [], st.stop)
  | m :: ms, st =>
    if st.stop then (st, [], true)
    else
      let p := processMsg beh m st
      let q := handleMsgs beh ms p.1
      (q.1, p.2 ++ q.2.1, q.2.2)

/-! ## The reconnect loop (`run`, lines 133-173)

Each iteration of `async for ws in websockets.connect(...)` is scripted by
an `Attempt`: the wall clock at `_auth_message` time, how the
authentication exchange goes, the inbound frames of the streaming phase,
and how the session ends.  `runModel` returns `none` while the scripted
attempts are exhausted without `run()` having returned, and `some b` when
`run()` returns `b = self._stop`. -/

inductive AuthScript where
  | reply (msg : String)  -- `ws.recv()` yields one reply frame
  | timeout               -- the 20-second `asyncio.wait_for` bound expires
  | connClosed            -- the connection closes during the handshake
deriving Repr, DecidableEq

inductive StreamEnd where
  | serverClosed          -- the transport drops; `recv` raises ConnectionClosed
  | clientClosed          -- a concurrent `close()`: sets `_stop`, closes the
                          -- socket, and the pending `recv` raises
deriving Repr, DecidableEq

structure Attempt where
  time : Nat
  auth : AuthScript
  msgs : List String
  ending : StreamEnd
deriving Repr, DecidableEq

/-- Did the single handshake reply authenticate?  (`_auth`, line 123:
`json.loads(msg) != {"type": "loggedIn"}` raises `RuntimeError`; an
unparsable reply raises `JSONDecodeError`; both are caught by `_auth`'s
generic handler, reported via `on_error`, and re-raised.)  Python's dict
equality against the one-entry literal holds exactly when the parsed value
is a dict with the single member `"type" ↦ "loggedIn"`. -/
def authReplyOk (m : String) : Bool :=
  match pyJsonLoads m with
  | some (.obj [(k, .str v)]) => k == "type" && v == "loggedIn"
  | _ => false

/-- Replay of the pending subscriptions (lines 156-157): iterates the
registry snapshot and calls `subscribe_callback` for each entry.  The
connection is live right after a successful handshake, so each send is
scripted as succeeding. -/
def replay (l : List (String × Nat)) (st : ClientState) :
    ClientState × List Event :=
  match l with
  | [] => (st, [])
  | (ch, cb) :: rest =>
    let r := subscribe_callback .ok ch cb st
    let q := replay rest r.2.1
    (q.1, r.2.2 ++ q.2)

/-- `run` over a scripted list of connection attempts.

Faithful control flow per attempt (lines 146-173):
`on_connect`; send the login frame and resolve the handshake;
* handshake `ConnectionClosed`: the `except ConnectionClosed` arm breaks
  (with `on_disconnect`, `on_exit`, `return self._stop`) only when `_stop`
  is set, otherwise falls through to the trailing `on_disconnect` and
  reconnects;
* bad reply: `_auth` reports `on_error` and re-raises; `run`'s generic
  handler reports `on_error` again, then trailing `on_disconnect` and
  reconnect — the failure never escapes `run`;
* timeout: `asyncio.wait_for` cancels `_auth` (its handler never runs) and
  raises in `run`, one `on_error`, then reconnect;
* success: publish the session, `on_auth`, replay the registry, stream.
  If the receive loop returns normally (stop flag observed) there is no
  exception, so the trailing `on_disconnect` runs and the `async for`
  reconnects; a server-side close reconnects likewise; a client `close()`
  sets `_stop`, so the resulting `ConnectionClosed` breaks the loop and
  `run` returns `True`. -/
def runModel (key secret : String) (beh : Nat → Json → Bool) :
    List Attempt → ClientState → Option Bool × ClientState × List Event
  | [], st => (none, st, [])
  | a :: rest, st =>
    let base := [.onConnect, .sentAuth (auth_message key secret a.time)]
    match a.auth with
    | .connClosed =>
      if st.stop then (some st.stop, st, base ++ [.onDisconnect, .onExit])
      else
        let k := runModel key secret beh rest st
        (k.1, k.2.1, base ++ [.onDisconnect] ++ k.2.2)
    | .timeout =>
      let k := runModel key secret beh rest st
      (k.1, k.2.1, base ++ [.onError, .onDisconnect] ++ k.2.2)
    | .reply m =>
      if authReplyOk m then
        let st1 := { st with client := some () }
        let rp := replay st1.pending st1
        let hm := handleMsgs beh a.msgs rp.1
        let pre := base ++ [.onAuth] ++ rp.2 ++ hm.2.1
        if hm.2.2 then
          -- `_handle_messages_forever` returned without raising: no break
          let k := runModel key secret beh rest hm.1
          (k.1, k.2.1, pre ++ [.onDisconnect] ++ k.2.2)
        else
          match a.ending with
          | .clientClosed =>
            (some true, { hm.1 with stop := true },
             pre ++ [.wsClosed, .onDisconnect, .onExit])
          | .serverClosed =>
            if hm.1.stop then (some hm.1.stop, hm.1, pre ++ [.onDisconnect, .onExit])
            else
              let k := runModel key secret beh rest hm.1
              (k.1, k.2.1, pre ++ [.onDisconnect] ++ k.2.2)
      else
        let k := runModel key secret beh rest st
        (k.1, k.2.1, base ++ [.onError, .onError, .onDisconnect] ++ k.2.2)

/-! ## Lock discipline (claim C9)

`WebSocketClient` has a single `asyncio.Lock` (`self._lock`).  For the
claim about which steps run under it, each operation is abstracted to its
ordered sequence of atomic steps as they appear in the source, with
`acquire`/`release` marking the extent of its `async with self._lock`
block. -/

inductive LStep where
  | acquire
  | release
  | insertPending   -- `self._pending_subscriptions[channel] = callback`
  | setCallback     -- `self._callbacks[channel] = callback`
  | delCallback     -- `del self._callbacks[channel]`
  | setStop         -- `self._stop = True`
  | netSend         -- `await self.ws.send(...)`
  | connectAuth     -- `on_connect` + `await asyncio.wait_for(self._auth(ws), ...)` + `on_auth`
  | forcedClose     -- `await self.ws.close()`
deriving Repr, DecidableEq

/-- `subscribe_callback`, lines 220-231: both registry writes precede
`async with self._lock`; only the send is inside it. -/
def subscribeSteps : List LStep :=
  [.insertPending, .setCallback, .acquire, .netSend, .release]

/-- `unsubscribe_callback` on a subscribed channel, lines 244-253: the
delete and the send both run inside the lock. -/
def unsubscribeSteps : List LStep :=
  [.acquire, .delCallback, .netSend, .release]

/-- `close`, lines 198-200. -/
def closeSteps : List LStep :=
  [.acquire, .setStop, .forcedClose, .release]

/-- `run`'s connect/authenticate phase, lines 148-154 (the replay of
pending subscriptions happens after this block releases the lock, each
`subscribe_callback` call re-acquiring it). -/
def runConnectSteps : List LStep :=
  [.acquire, .connectAuth, .release]

/-- Pair every step with whether the lock is held while it executes
(`d` = current lock depth). -/
def lockHeld : Nat → List LStep → List (LStep × Bool)
  | _, [] => []
  | d, .acquire :: r => (.acquire, true) :: lockHeld (d + 1) r
  | d, .release :: r => (.release, true) :: lockHeld (d - 1) r
  | d, s :: r => (s, decide (0 < d)) :: lockHeld d r

/-- Do all steps satisfying `p` run with the lock held? -/
def underLock (p : LStep → Bool) (steps : List LStep) : Bool :=
  (lockHeld 0 steps).all (fun sb => !p sb.1 || sb.2)

def isRegistryWrite : LStep → Bool
  | .insertPending => true
  | .setCallback => true
  | .delCallback => true
  | _ => false

def isNetSend : LStep → Bool
  | .netSend => true
  | _ => false

/-! ## Small derived notions used by the claim statements -/

/-- The server's success marker frame, `{"type": "loggedIn"}`. -/
def loggedInMsg : String := "\x7b\"type\": \"loggedIn\"\x7d"

/-- Pre-registering a list of subscriptions through
`add_pending_subscription`, as a caller does before `run()`. -/
def addPendingAll (chans : List (String × Nat)) (st : ClientState) :
    ClientState :=
  chans.foldl (fun s p => add_pending_subscription p.1 p.2 s) st

def isSentEvt : Event → Bool
  | .sent _ => true
  | _ => false

def isInvokedEvt : Event → Bool
  | .invoked _ _ => true
  | _ => false

/-- Is the parsed frame an update for channel `ch`?  (Mirrors the dispatch
conditions of `_handle_messages_forever`.) -/
def isUpdateFor (j : Json) (ch : String) : Bool :=
  match j with
  | .obj fields =>
    typeIsUpdate fields &&
    (match jlookup fields "channel" with
     | some (.str c) => c == ch
     | _ => false)
  | _ => false

/-- The value of field `k` of a parsed frame. -/
def getField (s k : String) : Option Json :=
  match pyJsonLoads s with
  | some (.obj fields) => jlookup fields k
  | _ => none

def isNumJson : Json → Bool
  | .num _ _ => true
  | _ => false

/-- Characters that `json.dumps` passes through a string literal verbatim. -/
def safeChar (c : Char) : Bool :=
  32 ≤ c.toNat ∧ c.toNat < 127 ∧ c ≠ '"' ∧ c ≠ '\\'

def strSafe (s : String) : Bool := s.data.all safeChar

def lowerHexChars : List Char :=
  "0123456789abcdef".data

instance instDecEqExcept {ε α : Type} [DecidableEq ε] [DecidableEq α] :
    DecidableEq (Except ε α) := fun a b =>
  match a, b with
  | .ok x, .ok y => if h : x = y then .isTrue (by rw [h]) else .isFalse (by simp [h])
  | .error x, .error y => if h : x = y then .isTrue (by rw [h]) else .isFalse (by simp [h])
  | .ok _, .error _ => .isFalse (by simp)
  | .error _, .ok _ => .isFalse (by simp)

/-! # Theorems

First a block of bookkeeping lemmas about which state fields each
operation can touch, then the claim theorems. -/

theorem subscribe_preserve (o : SendOutcome) (ch : String) (cb : Nat)
    (st : ClientState) :
    ((subscribe_callback o ch cb st).2.1).stop = st.stop ∧
    ((subscribe_callback o ch cb st).2.1).client = st.client := by
  unfold subscribe_callback add_pending_subscription
  cases h : st.client <;> cases o <;> simp [h]

theorem processMsg_preserve (beh : Nat → Json → Bool) (m : String)
    (st : ClientState) :
    ((processMsg beh m st).1).stop = st.stop ∧
    ((processMsg beh m st).1).client = st.client ∧
    ((processMsg beh m st).1).pending = st.pending := by
  unfold processMsg
  repeat' split
  all_goals (try (simp; done))
  all_goals simp only []
  all_goals (split <;> simp)

theorem handleMsgs_preserve (beh : Nat → Json → Bool) (ms : List String)
    (st : ClientState) :
    ((handleMsgs beh ms st).1).stop = st.stop ∧
    ((handleMsgs beh ms st).1).client = st.client ∧
    ((handleMsgs beh ms st).1).pending = st.pending ∧
    (handleMsgs beh ms st).2.2 = st.stop := by
  induction ms generalizing st with
  | nil => simp [handleMsgs]
  | cons m ms ih =>
    by_cases h : st.stop
    · simp [handleMsgs, h]
    · have hp := processMsg_preserve beh m st
      have := ih (processMsg beh m st).1
      simp only [handleMsgs, h, if_false]
      simp_all

theorem replay_preserve (l : List (String × Nat)) (st : ClientState) :
    ((replay l st).1).stop = st.stop ∧ ((replay l st).1).client = st.client := by
  induction l generalizing st with
  | nil => simp [replay]
  | cons p rest ih =>
    have hs := subscribe_preserve .ok p.1 p.2 st
    have := ih (subscribe_callback .ok p.1 p.2 st).2.1
    simp only [replay]
    simp_all

/-- Replaying on a live session sends exactly one subscribe frame per
registry entry, in registry order. -/
theorem replay_events (l : List (String × Nat)) (st : ClientState)
    (hc : st.client = some ()) :
    (replay l st).2 = l.map (fun p => Event.sent (SUBSCRIBE p.1)) := by
  induction l generalizing st with
  | nil => simp [replay]
  | cons p rest ih =>
    have hs := (subscribe_preserve .ok p.1 p.2 st).2
    have h2 : ((subscribe_callback .ok p.1 p.2 st).2.1).client = some () := by
      rw [hs, hc]
    simp only [replay]
    rw [ih _ h2]
    have : subscribe_callback .ok p.1 p.2 st =
        (.ok true, (subscribe_callback .ok p.1 p.2 st).2.1,
         [Event.sent (SUBSCRIBE p.1)]) := by
      unfold subscribe_callback add_pending_subscription
      simp [hc]
    rw [this]
    simp

theorem processMsg_no_sent (beh : Nat → Json → Bool) (m : String)
    (st : ClientState) :
    ∀ e ∈ (processMsg beh m st).2, isSentEvt e = false := by
  unfold processMsg
  repeat' split
  all_goals simp only []
  all_goals (try (split <;> simp [isSentEvt]))
  all_goals simp [isSentEvt]

/-- Events produced by the receive loop are only callback invocations and
`on_error` reports: the streaming phase never writes to the socket. -/
theorem handleMsgs_no_sent (beh : Nat → Json → Bool) (ms : List String)
    (st : ClientState) :
    ∀ e ∈ (handleMsgs beh ms st).2.1, isSentEvt e = false := by
  induction ms generalizing st with
  | nil => simp [handleMsgs]
  | cons m ms ih =>
    by_cases h : st.stop
    · simp [handleMsgs, h]
    · intro e he
      simp only [handleMsgs, h, Bool.false_eq_true, if_false,
        List.mem_append] at he
      rcases he with he | he
      · exact processMsg_no_sent beh m st e he
      · exact ih _ e he

/-! ## C9: lock discipline of registry mutations and sends -/

/-- C9 counterexample: in `subscribe_callback` the registry writes (the
pending-subscription insert and the callback-table assignment, lines
220-222) execute *before* `async with self._lock` is entered, so it is
false that every registry mutation of a subscribe call runs while holding
the lock together with its send. -/
theorem claim_C9_counterexample :
    underLock (fun s => isRegistryWrite s || isNetSend s) subscribeSteps = false := by
  decide

/-- C9 (amended): the single `asyncio.Lock` is held for every network
send of `subscribe_callback`/`unsubscribe_callback`, for
`unsubscribe_callback`'s registry delete, for the reconnect loop's
connect-and-authenticate phase, and for `close()`'s stop-and-force-close
step — but `subscribe_callback` performs its two registry writes before
acquiring the lock, so those writes are *not* covered by it. -/
theorem claim_C9_amended :
    underLock isNetSend subscribeSteps = true ∧
    underLock isRegistryWrite subscribeSteps = false ∧
    underLock (fun s => isRegistryWrite s || isNetSend s) unsubscribeSteps = true ∧
    underLock (fun s => s == LStep.connectAuth) runConnectSteps = true ∧
    underLock (fun s => s == LStep.setStop || s == LStep.forcedClose) closeSteps = true := by
  decide

/-! ## C1: unsubscribed channels and reconnect replay -/

set_option maxRecDepth 100000 in
/-- C1 (code bug): after `subscribe_callback("prices", cb)` followed by
`unsubscribe_callback("prices")`, the callback entry is gone, but
`_pending_subscriptions` still holds the channel —
`unsubscribe_callback` never deletes from it, although its own docstring
says "Also removes the subscription from the pending subscriptions" — so
the next (re)connect of `run` replays a subscribe frame for the
unsubscribed channel. -/
theorem claim_C1_code_bug :
    dictGet ((unsubscribe_callback .ok "prices"
        ((subscribe_callback .ok "prices" 1 initClient).2.1)).2.1).callbacks
      "prices" = none ∧
    dictGet ((unsubscribe_callback .ok "prices"
        ((subscribe_callback .ok "prices" 1 initClient).2.1)).2.1).pending
      "prices" = some 1 ∧
    Event.sent (SUBSCRIBE "prices") ∈
      (runModel "key" "secret" (fun _ _ => false)
        [{ time := 0, auth := .reply loggedInMsg, msgs := [],
           ending := .serverClosed }]
        ((unsubscribe_callback .ok "prices"
          ((subscribe_callback .ok "prices" 1 initClient).2.1)).2.1)).2.2 := by
  decide

/-! ## C3: subscribe/unsubscribe while disconnected -/

/-- C3 counterexample: with no session open, `unsubscribe_callback` of a
channel that has no registered callback returns `True` (the early
idempotent return), not `False`; and after a disconnected subscribe, an
unsubscribe's removal does *not* take effect for future reconnects — the
pending registry still maps the channel. -/
theorem claim_C3_counterexample :
    (unsubscribe_callback .ok "prices" initClient).1 = .ok true ∧
    dictGet ((unsubscribe_callback .ok "prices"
        ((subscribe_callback .ok "prices" 1 initClient).2.1)).2.1).pending
      "prices" = some 1 := by
  decide

/-- C3 (amended): while no session is open, `subscribe_callback` returns
`False` (the `ws` accessor's RuntimeError is caught, not propagated) and
both registry writes take effect — the pending insert persists for future
reconnects.  `unsubscribe_callback` of a channel with a registered
callback returns `False` and removes the callback for the current session
only, leaving the pending registry untouched (so the removal does not
persist across reconnects); on a channel without a callback it returns
`True` and changes nothing. -/
theorem claim_C3_amended (o : SendOutcome) (ch : String) (cb : Nat)
    (st : ClientState) (hc : st.client = none) :
    ((subscribe_callback o ch cb st).1 = .ok false ∧
     ((subscribe_callback o ch cb st).2.1).pending = dictInsert st.pending ch cb ∧
     ((subscribe_callback o ch cb st).2.1).callbacks = dictInsert st.callbacks ch cb) ∧
    (dictGet st.callbacks ch = none →
      (unsubscribe_callback o ch st).1 = .ok true ∧
      (unsubscribe_callback o ch st).2.1 = st) ∧
    (dictGet st.callbacks ch ≠ none →
      (unsubscribe_callback o ch st).1 = .ok false ∧
      ((unsubscribe_callback o ch st).2.1).callbacks = dictRemove st.callbacks ch ∧
      ((unsubscribe_callback o ch st).2.1).pending = st.pending) := by
  refine ⟨?_, ?_, ?_⟩
  · unfold subscribe_callback add_pending_subscription
    simp [hc]
  · intro h
    unfold unsubscribe_callback
    simp [h]
  · intro h
    unfold unsubscribe_callback
    cases hg : dictGet st.callbacks ch with
    | none => exact absurd hg h
    | some c => simp [hg, hc]

/-- C3 witness: the amended claim at a concrete disconnected client. -/
theorem claim_C3_witness :
    initClient.client = none ∧
    (subscribe_callback .ok "prices" 1 initClient).1 = .ok false :=
  ⟨rfl, (claim_C3_amended .ok "prices" 1 initClient rfl).1.1⟩

/-! ## C7: idempotence of close -/

/-- C7 counterexample: `close()` called before any session exists is not a
success — `self.ws` raises `RuntimeError("Client not set.")` out of the
call (although the stop flag has already been set by then). -/
theorem claim_C7_counterexample :
    (close initClient).1 = .error .runtimeNotSet ∧
    ((close initClient).2.1).stop = true := by
  decide

/-- C7 (amended): once a session has been authenticated, `close()`
succeeds, sets the stop flag, and is idempotent — a second call succeeds
and leaves the state unchanged.  A `close()` during streaming makes
`run()` return `True` (client-initiated) exactly once, with no further
reconnect attempt: the run result is independent of any scripted attempts
after the closed one.  Called before any session exists, however,
`close()` sets the stop flag but raises `RuntimeError`. -/
theorem claim_C7_amended (st st0 : ClientState) (hc : st.client = some ())
    (h0 : st0.stop = false) (key secret : String) (beh : Nat → Json → Bool)
    (t : Nat) (msgs : List String) (rest : List Attempt) :
    ((close st).1 = .ok () ∧
     ((close st).2.1).stop = true ∧
     (close ((close st).2.1)).1 = .ok () ∧
     (close ((close st).2.1)).2.1 = (close st).2.1) ∧
    ((runModel key secret beh
        ({ time := t, auth := .reply loggedInMsg, msgs := msgs,
           ending := .clientClosed } :: rest) st0).1 = some true ∧
     runModel key secret beh
        ({ time := t, auth := .reply loggedInMsg, msgs := msgs,
           ending := .clientClosed } :: rest) st0 =
       runModel key secret beh
        [{ time := t, auth := .reply loggedInMsg, msgs := msgs,
           ending := .clientClosed }] st0) := by
  have hA : authReplyOk loggedInMsg = true := by decide
  have hstop1 : ((replay ({ st0 with client := some () } : ClientState).pending
      { st0 with client := some () }).1).stop = false := by
    rw [(replay_preserve _ _).1]
    exact h0
  have hret : (handleMsgs beh msgs (replay ({ st0 with client := some () } : ClientState).pending
      { st0 with client := some () }).1).2.2 = false := by
    rw [(handleMsgs_preserve _ _ _).2.2.2]
    exact hstop1
  constructor
  · refine ⟨?_, ?_, ?_, ?_⟩ <;> simp [close, hc]
  · constructor
    · simp only [runModel, hA, if_true, hret, Bool.false_eq_true, if_false]
    · simp only [runModel, hA, if_true, hret, Bool.false_eq_true, if_false]

/-- C7 witness: the amended claim at a concrete connected client and a
one-attempt script followed by a would-be second attempt. -/
theorem claim_C7_witness :
    (⟨[], [], some (), false⟩ : ClientState).client = some () ∧
    (initClient.stop = false) ∧
    (close (⟨[], [], some (), false⟩ : ClientState)).1 = .ok () :=
  ⟨rfl, rfl,
   ((claim_C7_amended ⟨[], [], some (), false⟩ initClient rfl rfl "k" "s"
      (fun _ _ => false) 0 [] []).1).1⟩

/-! ## C2: authentication failure and the reconnect loop -/

set_option maxRecDepth 1000000 in
/-- C2 counterexample: a hard rejection of the login (reply
`{"type":"badLogin"}`) is *not* surfaced out of `run()`: the generic
`except Exception` arm of `run` reports it through `on_error` (after
`_auth` already did) and the `async for` reconnects — the trace shows a
second connection attempt that authenticates and streams as if nothing
happened, and `run` never returns. -/
theorem claim_C2_counterexample :
    (runModel "key" "secret" (fun _ _ => false)
      [{ time := 0, auth := .reply "\x7b\"type\":\"badLogin\"\x7d", msgs := [],
         ending := .serverClosed },
       { time := 1, auth := .reply loggedInMsg, msgs := [],
         ending := .serverClosed }] initClient).1 = none ∧
    (runModel "key" "secret" (fun _ _ => false)
      [{ time := 0, auth := .reply "\x7b\"type\":\"badLogin\"\x7d", msgs := [],
         ending := .serverClosed },
       { time := 1, auth := .reply loggedInMsg, msgs := [],
         ending := .serverClosed }] initClient).2.2 =
      [.onConnect, .sentAuth (auth_message "key" "secret" 0),
       .onError, .onError, .onDisconnect,
       .onConnect, .sentAuth (auth_message "key" "secret" 1),
       .onAuth, .onDisconnect] := by
  decide

/-- C2 (amended): an authentication failure aborts only the current
attempt.  A reply that is not the `loggedIn` literal (or does not parse)
is reported through `on_error` twice — once by `_auth`'s handler, once by
`run`'s generic handler — and a handshake timeout once; in both cases the
loop then invokes `on_disconnect` and proceeds to the next reconnect
attempt with the client state untouched.  Nothing propagates out of
`run()`. -/
theorem claim_C2_amended (key secret : String) (beh : Nat → Json → Bool)
    (t : Nat) (m : String) (msgs : List String) (e : StreamEnd)
    (rest : List Attempt) (st : ClientState) (hm : authReplyOk m = false) :
    runModel key secret beh
        ({ time := t, auth := .reply m, msgs := msgs, ending := e } :: rest) st =
      ((runModel key secret beh rest st).1,
       (runModel key secret beh rest st).2.1,
       Event.onConnect :: .sentAuth (auth_message key secret t) ::
         .onError :: .onError :: .onDisconnect ::
         (runModel key secret beh rest st).2.2) ∧
    runModel key secret beh
        ({ time := t, auth := .timeout, msgs := msgs, ending := e } :: rest) st =
      ((runModel key secret beh rest st).1,
       (runModel key secret beh rest st).2.1,
       Event.onConnect :: .sentAuth (auth_message key secret t) ::
         .onError :: .onDisconnect ::
         (runModel key secret beh rest st).2.2) := by
  constructor
  · simp [runModel, hm]
  · simp [runModel]

/-- C2 witness: the amended claim at a concrete bad reply. -/
theorem claim_C2_witness :
    authReplyOk "\x7b\"type\":\"badLogin\"\x7d" = false ∧
    runModel "k" "s" (fun _ _ => false)
      [{ time := 0, auth := .reply "\x7b\"type\":\"badLogin\"\x7d", msgs := [],
         ending := .serverClosed }] initClient =
      ((runModel "k" "s" (fun _ _ => false) [] initClient).1,
       (runModel "k" "s" (fun _ _ => false) [] initClient).2.1,
       Event.onConnect :: .sentAuth (auth_message "k" "s" 0) ::
         .onError :: .onError :: .onDisconnect ::
         (runModel "k" "s" (fun _ _ => false) [] initClient).2.2) :=
  ⟨by decide,
   (claim_C2_amended "k" "s" (fun _ _ => false) 0 "\x7b\"type\":\"badLogin\"\x7d"
     [] .serverClosed [] initClient (by decide)).1⟩

/-! ## Dispatch characterization lemmas (for C5 and C10) -/

theorem dictGet_append_self (l : List (String × Nat)) (k : String) (v : Nat)
    (h : dictGet l k = none) : dictGet (l ++ [(k, v)]) k = some v := by
  induction l with
  | nil => simp [dictGet]
  | cons p rest ih =>
    obtain ⟨k', v'⟩ := p
    by_cases hk : k' = k
    · simp [dictGet, hk] at h
    · simp only [dictGet, hk, if_false] at h
      simp only [List.cons_append, dictGet, hk, if_false]
      exact ih h

theorem dictRemove_append_self (l : List (String × Nat)) (k : String) (v : Nat)
    (h : dictGet l k = none) : dictRemove (l ++ [(k, v)]) k = l := by
  induction l with
  | nil => simp [dictRemove]
  | cons p rest ih =>
    obtain ⟨k', v'⟩ := p
    by_cases hk : k' = k
    · simp [dictGet, hk] at h
    · simp only [dictGet, hk, if_false] at h
      simp only [List.cons_append, dictRemove, hk, if_false]
      exact congrArg (fun x => (k', v') :: x) (ih h)

/-- An update frame for channel `ch` is an object whose `type` field is
the string `"update"` and whose `channel` field is the string `ch`. -/
theorem isUpdateFor_destruct (j : Json) (ch : String)
    (hu : isUpdateFor j ch = true) :
    ∃ fields, j = .obj fields ∧
      jlookup fields "type" = some (.str "update") ∧
      jlookup fields "channel" = some (.str ch) := by
  cases j with
  | obj fields =>
    simp only [isUpdateFor, typeIsUpdate, Bool.and_eq_true] at hu
    obtain ⟨h1, h2⟩ := hu
    refine ⟨fields, rfl, ?_, ?_⟩
    · cases h : jlookup fields "type" with
      | none => rw [h] at h1; simp at h1
      | some tv =>
        rw [h] at h1
        cases tv <;> simp at h1
        rw [h1]
    · cases h : jlookup fields "channel" with
      | none => rw [h] at h2; simp at h2
      | some cv =>
        rw [h] at h2
        cases cv <;> simp at h2
        rw [h2]
  | null => simp [isUpdateFor] at hu
  | bool b => simp [isUpdateFor] at hu
  | str s => simp [isUpdateFor] at hu
  | num mm ee => simp [isUpdateFor] at hu
  | arr l => simp [isUpdateFor] at hu

/-- Dispatch of an update frame whose channel has a registered callback:
the callback is invoked, `on_error` fires exactly when it raises, and the
state is unchanged. -/
theorem processMsg_update (beh : Nat → Json → Bool) (m : String) (j : Json)
    (ch : String) (cb : Nat) (st : ClientState)
    (hp : pyJsonLoads m = some j) (hu : isUpdateFor j ch = true)
    (hc : dictGet st.callbacks ch = some cb) :
    processMsg beh m st =
      (st, if beh cb j then [.invoked cb m, .onError] else [.invoked cb m]) := by
  obtain ⟨fields, rfl, ht, hch⟩ := isUpdateFor_destruct j ch hu
  unfold processMsg
  rw [hp]
  simp only [ht, hch, dictGetDefault, hc]
  cases hb : beh cb (Json.obj fields) <;> simp [hb]

/-- Dispatch of an update frame whose channel has *no* registered
callback: the `defaultdict` inserts a `noop` entry for the channel (a
registry mutation), which is then invoked. -/
theorem processMsg_update_default (beh : Nat → Json → Bool) (m : String)
    (j : Json) (ch : String) (st : ClientState)
    (hp : pyJsonLoads m = some j) (hu : isUpdateFor j ch = true)
    (hn : dictGet st.callbacks ch = none) :
    processMsg beh m st =
      ({ st with callbacks := st.callbacks ++ [(ch, noopCb)] },
       if beh noopCb j then [.invoked noopCb m, .onError]
       else [.invoked noopCb m]) := by
  obtain ⟨fields, rfl, ht, hch⟩ := isUpdateFor_destruct j ch hu
  unfold processMsg
  rw [hp]
  simp only [ht, hch, dictGetDefault, hn]
  cases hb : beh noopCb (Json.obj fields) <;> simp [hb]

/-! ## C5: exception isolation in the receive loop -/

/-- C5: any exception raised while processing one inbound message is
caught at the dispatch boundary — the loop's recursion is oblivious to
what processing the head message produced, and a failing message
contributes an `on_error` report; concretely, a message whose registered
callback raises yields `invoked` followed by `on_error`, and a second
update on a different channel is still dispatched to its own callback
afterwards. -/
theorem claim_C5 (beh : Nat → Json → Bool) (m1 m2 : String)
    (st : ClientState) (j1 j2 : Json) (ch1 ch2 : String) (cb1 cb2 : Nat)
    (hstop : st.stop = false)
    (hp1 : pyJsonLoads m1 = some j1) (hu1 : isUpdateFor j1 ch1 = true)
    (hc1 : dictGet st.callbacks ch1 = some cb1) (hraise : beh cb1 j1 = true)
    (hp2 : pyJsonLoads m2 = some j2) (hu2 : isUpdateFor j2 ch2 = true)
    (hc2 : dictGet st.callbacks ch2 = some cb2) (hok : beh cb2 j2 = false) :
    (∀ (m : String) (ms : List String) (st' : ClientState),
      st'.stop = false →
      handleMsgs beh (m :: ms) st' =
        ((handleMsgs beh ms (processMsg beh m st').1).1,
         (processMsg beh m st').2 ++
           (handleMsgs beh ms (processMsg beh m st').1).2.1,
         (handleMsgs beh ms (processMsg beh m st').1).2.2)) ∧
    (handleMsgs beh [m1, m2] st).2.1 =
      [.invoked cb1 m1, .onError, .invoked cb2 m2] := by
  constructor
  · intro m ms st' h
    simp [handleMsgs, h]
  · have e1 : processMsg beh m1 st = (st, [.invoked cb1 m1, .onError]) := by
      rw [processMsg_update beh m1 j1 ch1 cb1 st hp1 hu1 hc1, hraise]
      simp
    have e2 : processMsg beh m2 st = (st, [.invoked cb2 m2]) := by
      rw [processMsg_update beh m2 j2 ch2 cb2 st hp2 hu2 hc2, hok]
      simp
    simp [handleMsgs, hstop, e1, e2]

/-- C5 witness: callback 1 (channel `"a"`) raises, callback 2 (channel
`"b"`) still receives its update. -/
theorem claim_C5_witness :
    pyJsonLoads "\x7b\"type\":\"update\",\"channel\":\"a\"\x7d" =
      some (.obj [("type", .str "update"), ("channel", .str "a")]) ∧
    (handleMsgs (fun cb _ => cb == 1)
        ["\x7b\"type\":\"update\",\"channel\":\"a\"\x7d",
         "\x7b\"type\":\"update\",\"channel\":\"b\"\x7d"]
        ⟨[], [("a", 1), ("b", 2)], some (), false⟩).2.1 =
      [.invoked 1 "\x7b\"type\":\"update\",\"channel\":\"a\"\x7d", .onError,
       .invoked 2 "\x7b\"type\":\"update\",\"channel\":\"b\"\x7d"] :=
  ⟨rfl,
   (claim_C5 (fun cb _ => cb == 1)
     "\x7b\"type\":\"update\",\"channel\":\"a\"\x7d"
     "\x7b\"type\":\"update\",\"channel\":\"b\"\x7d"
     ⟨[], [("a", 1), ("b", 2)], some (), false⟩
     (.obj [("type", .str "update"), ("channel", .str "a")])
     (.obj [("type", .str "update"), ("channel", .str "b")])
     "a" "b" 1 2 rfl rfl (by decide) rfl rfl rfl (by decide)
     rfl rfl).2⟩

/-! ## C10: dispatch to an unregistered channel mutates the registry -/

/-- C10: dispatching an update for a channel with no registered callback
is not read-only — the `defaultdict` inserts a `noop` entry for it.  An
`unsubscribe_callback` of that never-subscribed channel before the
dispatch takes the early idempotent return (`True`, no frame); after the
dispatch it no longer does: it deletes the `noop` entry and sends an
unsubscribe frame over the network. -/
theorem claim_C10 (beh : Nat → Json → Bool) (m : String) (j : Json)
    (ch : String) (st : ClientState)
    (hp : pyJsonLoads m = some j) (hu : isUpdateFor j ch = true)
    (hn : dictGet st.callbacks ch = none) (hcl : st.client = some ()) :
    dictGet ((processMsg beh m st).1).callbacks ch = some noopCb ∧
    ((unsubscribe_callback .ok ch st).1 = .ok true ∧
     (unsubscribe_callback .ok ch st).2.2 = []) ∧
    (unsubscribe_callback .ok ch ((processMsg beh m st).1)).2.2 =
      [.sent (UNSUBSCRIBE ch)] ∧
    dictGet ((unsubscribe_callback .ok ch
        ((processMsg beh m st).1)).2.1).callbacks ch = none := by
  rw [processMsg_update_default beh m j ch st hp hu hn]
  have hg : dictGet (st.callbacks ++ [(ch, noopCb)]) ch = some noopCb :=
    dictGet_append_self st.callbacks ch noopCb hn
  refine ⟨?_, ⟨?_, ?_⟩, ?_, ?_⟩
  · exact hg
  · simp [unsubscribe_callback, hn]
  · simp [unsubscribe_callback, hn]
  · unfold unsubscribe_callback
    simp [hg, hcl]
  · unfold unsubscribe_callback
    simp only [hg, hcl]
    simp [dictRemove_append_self st.callbacks ch noopCb hn, hn]

/-- C10 witness: an update on the never-subscribed channel `"x"` inserts
the noop entry, and unsubscribing `"x"` afterwards sends a frame. -/
theorem claim_C10_witness :
    dictGet (⟨[], [], some (), false⟩ : ClientState).callbacks "x" = none ∧
    (unsubscribe_callback .ok "x"
        ((processMsg (fun _ _ => false)
          "\x7b\"type\":\"update\",\"channel\":\"x\"\x7d"
          ⟨[], [], some (), false⟩).1)).2.2 =
      [.sent (UNSUBSCRIBE "x")] :=
  ⟨rfl,
   (claim_C10 (fun _ _ => false)
     "\x7b\"type\":\"update\",\"channel\":\"x\"\x7d"
     (.obj [("type", .str "update"), ("channel", .str "x")])
     "x" ⟨[], [], some (), false⟩ rfl (by decide) rfl rfl).2.2.1⟩

/-! ## C4: resubscription completeness -/

theorem dictGet_append_none (l : List (String × Nat)) (k k1 : String) (v1 : Nat)
    (h : dictGet l k = none) (hne : k1 ≠ k) :
    dictGet (l ++ [(k1, v1)]) k = none := by
  induction l with
  | nil => simp [dictGet, hne]
  | cons p rest ih =>
    obtain ⟨k', v'⟩ := p
    by_cases hk : k' = k
    · simp [dictGet, hk] at h
    · simp only [dictGet, hk, if_false] at h
      simp only [List.cons_append, dictGet, hk, if_false]
      exact ih h

theorem dictInsert_fresh (l : List (String × Nat)) (k : String) (v : Nat)
    (h : dictGet l k = none) : dictInsert l k v = l ++ [(k, v)] := by
  induction l with
  | nil => simp [dictInsert]
  | cons p rest ih =>
    obtain ⟨k', v'⟩ := p
    by_cases hk : k' = k
    · simp [dictGet, hk] at h
    · simp only [dictGet, hk, if_false] at h
      simp only [dictInsert, hk, if_false, List.cons_append]
      exact congrArg (fun x => (k', v') :: x) (ih h)

/-- Pre-registering distinct fresh channels appends them to the pending
registry in call order, touching nothing else. -/
theorem addPendingAll_spec (chans : List (String × Nat)) (st : ClientState)
    (hn : (chans.map Prod.fst).Nodup)
    (hf : ∀ p ∈ chans, dictGet st.pending p.1 = none) :
    (addPendingAll chans st).pending = st.pending ++ chans ∧
    (addPendingAll chans st).callbacks = st.callbacks ∧
    (addPendingAll chans st).client = st.client ∧
    (addPendingAll chans st).stop = st.stop := by
  induction chans generalizing st with
  | nil => simp [addPendingAll]
  | cons p rest ih =>
    obtain ⟨k, v⟩ := p
    have hfh : dictGet st.pending k = none := hf (k, v) (by simp)
    have hstep : addPendingAll ((k, v) :: rest) st =
        addPendingAll rest (add_pending_subscription k v st) := rfl
    have hpend : (add_pending_subscription k v st).pending =
        st.pending ++ [(k, v)] := by
      simp [add_pending_subscription, dictInsert_fresh _ _ _ hfh]
    simp only [List.map_cons, List.nodup_cons] at hn
    have hf' : ∀ q ∈ rest,
        dictGet (add_pending_subscription k v st).pending q.1 = none := by
      intro q hq
      rw [hpend]
      refine dictGet_append_none _ _ _ _ (hf q (by simp [hq])) ?_
      intro hkq
      exact hn.1 (hkq ▸ List.mem_map_of_mem Prod.fst hq)
    have := ih (add_pending_subscription k v st) hn.2 hf'
    rw [hstep]
    refine ⟨?_, ?_, ?_, ?_⟩
    · rw [this.1, hpend]
      simp
    · rw [this.2.1]; rfl
    · rw [this.2.2.1]; rfl
    · rw [this.2.2.2]; rfl

/-- C4: for any set of distinct channels registered through
`add_pending_subscription` before `run()`, the trace of the first
successful attempt splits into a prefix and a suffix such that the
subscribe frames of the prefix are exactly one per registered channel (in
registration order), the prefix dispatches no callback, and no subscribe
frame is ever sent after the prefix — all resubscriptions happen before
any inbound update is dispatched. -/
theorem claim_C4 (chans : List (String × Nat))
    (hn : (chans.map Prod.fst).Nodup)
    (key secret : String) (beh : Nat → Json → Bool) (t : Nat)
    (msgs : List String) (e : StreamEnd) :
    ∃ pre post,
      (runModel key secret beh
        [{ time := t, auth := .reply loggedInMsg, msgs := msgs, ending := e }]
        (addPendingAll chans initClient)).2.2 = pre ++ post ∧
      pre.filter isSentEvt = chans.map (fun p => Event.sent (SUBSCRIBE p.1)) ∧
      (∀ ev ∈ pre, isInvokedEvt ev = false) ∧
      (∀ ev ∈ post, isSentEvt ev = false) := by
  have hA : authReplyOk loggedInMsg = true := by decide
  obtain ⟨hpend, hcbs, hcl, hstop⟩ :=
    addPendingAll_spec chans initClient hn (by intro p hp; rfl)
  set st0 := addPendingAll chans initClient with hst0
  set st1 : ClientState := { st0 with client := some () } with hst1
  have hcl1 : st1.client = some () := rfl
  have hpend1 : st1.pending = chans := by simp [hst1, hpend, initClient]
  have hstop1 : st1.stop = false := by simp [hst1, hstop, initClient]
  have hrevents : (replay st1.pending st1).2 =
      chans.map (fun p => Event.sent (SUBSCRIBE p.1)) := by
    rw [replay_events _ _ hcl1, hpend1]
  have hrstop : ((replay st1.pending st1).1).stop = false := by
    rw [(replay_preserve _ _).1, hstop1]
  have hret : (handleMsgs beh msgs (replay st1.pending st1).1).2.2 = false := by
    rw [(handleMsgs_preserve _ _ _).2.2.2, hrstop]
  have hmstop : ((handleMsgs beh msgs (replay st1.pending st1).1).1).stop = false := by
    rw [(handleMsgs_preserve _ _ _).1, hrstop]
  refine ⟨[.onConnect, .sentAuth (auth_message key secret t), .onAuth] ++
      chans.map (fun p => Event.sent (SUBSCRIBE p.1)),
    (handleMsgs beh msgs (replay st1.pending st1).1).2.1 ++
      (match e with
       | .clientClosed => [Event.wsClosed, .onDisconnect, .onExit]
       | .serverClosed => [Event.onDisconnect]), ?_, ?_, ?_, ?_⟩
  · cases e with
    | clientClosed =>
      simp only [runModel, hA, if_true, hret, Bool.false_eq_true, if_false]
      rw [hrevents]
      simp
    | serverClosed =>
      simp only [runModel, hA, if_true, hret, Bool.false_eq_true, if_false,
        hmstop, runModel]
      rw [hrevents]
      simp
  · have h3 : [Event.onConnect, Event.sentAuth (auth_message key secret t),
        Event.onAuth].filter isSentEvt = [] := rfl
    have h4 : (chans.map (fun p => Event.sent (SUBSCRIBE p.1))).filter isSentEvt =
        chans.map (fun p => Event.sent (SUBSCRIBE p.1)) :=
      List.filter_eq_self.mpr (by
        intro a ha
        obtain ⟨p, hp, rfl⟩ := List.mem_map.mp ha
        rfl)
    rw [List.filter_append, h3, h4, List.nil_append]
  · intro ev hev
    rcases List.mem_append.mp hev with hev | hev
    · simp only [List.mem_cons, List.not_mem_nil, or_false] at hev
      rcases hev with rfl | rfl | rfl <;> rfl
    · obtain ⟨p, hp, rfl⟩ := List.mem_map.mp hev
      rfl
  · intro ev hev
    rcases List.mem_append.mp hev with hev | hev
    · exact handleMsgs_no_sent beh msgs _ ev hev
    · cases e with
      | clientClosed =>
        simp only [List.mem_cons, List.not_mem_nil, or_false] at hev
        rcases hev with rfl | rfl | rfl <;> rfl
      | serverClosed =>
        simp only [List.mem_cons, List.not_mem_nil, or_false] at hev
        rcases hev with rfl
        rfl

/-! ## C6: decimal fidelity of inbound numeric fields -/

theorem notDash_of_digit (c : Char) (h : isDigitCh c = true) : (c = '-') = False := by
  simp only [isDigitCh, decide_eq_true_eq] at h
  simp only [eq_iff_iff, iff_false]
  rintro rfl
  exact absurd h (by decide)

theorem spanDigits_append (ds rest : List Char)
    (hd : ∀ c ∈ ds, isDigitCh c = true)
    (hr : isDigitCh (rest.headD ' ') = false) :
    spanDigits (ds ++ rest) = (ds, rest) := by
  induction ds with
  | nil =>
    cases rest with
    | nil => rfl
    | cons r rs =>
      simp only [List.headD_cons] at hr
      simp [spanDigits, hr]
  | cons c cs ih =>
    have hc := hd c (by simp)
    simp only [List.cons_append, spanDigits, hc, if_true, List.append_eq]
    rw [ih (fun x hx => hd x (by simp [hx]))]

/-- Splitting a digit string splits its value positionally. -/
theorem digitsToNat_append (ds fs : List Char) :
    digitsToNat (ds ++ fs) = digitsToNat ds * 10 ^ fs.length + digitsToNat fs := by
  have key : ∀ (l : List Char) (acc : Nat),
      l.foldl (fun a c => a * 10 + (c.toNat - 48)) acc =
        acc * 10 ^ l.length + l.foldl (fun a c => a * 10 + (c.toNat - 48)) 0 := by
    intro l
    induction l with
    | nil => intro acc; simp
    | cons c cs ih =>
      intro acc
      simp only [List.foldl_cons, List.length_cons]
      rw [ih (acc * 10 + (c.toNat - 48)), ih (0 * 10 + (c.toNat - 48))]
      ring
  unfold digitsToNat
  rw [List.foldl_append, key]

theorem parseExp_default (cs : List Char)
    (h : cs.headD ' ' ≠ 'e' ∧ cs.headD ' ' ≠ 'E') :
    parseExp cs = some (0, cs) := by
  unfold parseExp
  split
  case _ rest => exact absurd rfl h.1
  case _ rest => exact absurd rfl h.1
  case _ rest => exact absurd rfl h.1
  case _ rest => exact absurd rfl h.2
  case _ rest => exact absurd rfl h.2
  case _ rest => exact absurd rfl h.2
  case _ => rfl

/-- A decimal literal `<ds>.<fs>` is decoded with mantissa the
concatenated digits and exponent minus the fraction length — the exact
value, with no rounding. -/
theorem parsePos_decimal (ds fs rest : List Char)
    (hds : ds ≠ []) (hdd : ∀ c ∈ ds, isDigitCh c = true)
    (hlz : 1 < ds.length → ds.headD '0' ≠ '0')
    (hfs : fs ≠ []) (hfd : ∀ c ∈ fs, isDigitCh c = true)
    (hrd : isDigitCh (rest.headD ' ') = false)
    (hre : rest.headD ' ' ≠ 'e' ∧ rest.headD ' ' ≠ 'E') :
    parsePosNumber (ds ++ '.' :: (fs ++ rest)) =
      some (((digitsToNat (ds ++ fs) : Int), -(fs.length : Int)), rest) := by
  have h1 : spanDigits (ds ++ '.' :: (fs ++ rest)) = (ds, '.' :: (fs ++ rest)) :=
    spanDigits_append ds ('.' :: (fs ++ rest)) hdd
      (by simp only [List.headD_cons]; decide)
  have h2 : spanDigits (fs ++ rest) = (fs, rest) := spanDigits_append _ _ hfd hrd
  have h3 : parseExp rest = some (0, rest) := parseExp_default rest hre
  unfold parsePosNumber
  rw [h1]
  simp only []
  rw [if_neg hds, if_neg (fun hc => hlz hc.1 hc.2)]
  simp only [h2]
  rw [if_neg hfs, h3]
  simp

/-- C6 counterexample: the spec's exemplar carries the price as a JSON
*string* (`"price":"22.8376378316913383"`), and `json.loads` leaves a
string alone — `parse_float=Decimal` only applies to number literals — so
the parsed field is string-typed, not a decimal-typed value as claimed. -/
theorem claim_C6_counterexample :
    getField "\x7b\"type\":\"update\",\"channel\":\"prices\",\"price\":\"22.8376378316913383\"\x7d"
        "price" = some (.str "22.8376378316913383") ∧
    (getField "\x7b\"type\":\"update\",\"channel\":\"prices\",\"price\":\"22.8376378316913383\"\x7d"
        "price").map isNumJson = some false :=
  ⟨rfl, rfl⟩

/-- C6 (amended): fields carried as JSON *number* literals are decoded as
arbitrary-precision decimals with no binary rounding: a literal
`<ds>.<fs>` parses to mantissa/exponent whose rational value is exactly
the literal's value, and the unquoted exemplar decodes to exactly
`228376378316913383 × 10⁻¹⁶`.  A field carried as the JSON *string*
`"22.8376378316913383"` round-trips to that exact string, preserved
verbatim (never converted to a binary float), but it is string-typed, not
decimal-typed. -/
theorem claim_C6_amended (ds fs rest : List Char)
    (hds : ds ≠ []) (hdd : ∀ c ∈ ds, isDigitCh c = true)
    (hlz : 1 < ds.length → ds.headD '0' ≠ '0')
    (hfs : fs ≠ []) (hfd : ∀ c ∈ fs, isDigitCh c = true)
    (hrd : isDigitCh (rest.headD ' ') = false)
    (hre : rest.headD ' ' ≠ 'e' ∧ rest.headD ' ' ≠ 'E') :
    parseNumber (ds ++ '.' :: (fs ++ rest)) =
      some (((digitsToNat (ds ++ fs) : Int), -(fs.length : Int)), rest) ∧
    numVal (digitsToNat (ds ++ fs) : Int) (-(fs.length : Int)) =
      (digitsToNat ds : ℚ) + (digitsToNat fs : ℚ) / 10 ^ fs.length ∧
    getField "\x7b\"type\":\"update\",\"channel\":\"prices\",\"price\":22.8376378316913383\x7d"
        "price" = some (.num 228376378316913383 (-16)) ∧
    getField "\x7b\"type\":\"update\",\"channel\":\"prices\",\"price\":\"22.8376378316913383\"\x7d"
        "price" = some (.str "22.8376378316913383") := by
  refine ⟨?_, ?_, rfl, rfl⟩
  · have hpos := parsePos_decimal ds fs rest hds hdd hlz hfs hfd hrd hre
    unfold parseNumber
    split
    case _ r heq =>
      exfalso
      obtain ⟨d0, ds', rfl⟩ : ∃ d0 ds', ds = d0 :: ds' := by
        cases ds with
        | nil => exact absurd rfl hds
        | cons a b => exact ⟨a, b, rfl⟩
      simp only [List.cons_append, List.cons.injEq] at heq
      have hd0 : isDigitCh d0 = true := hdd d0 (by simp)
      rw [heq.1] at hd0
      exact absurd hd0 (by decide)
    case _ => exact hpos
  · rw [numVal, digitsToNat_append]
    rw [zpow_neg, zpow_natCast]
    push_cast
    have h10 : ((10 : ℚ) ^ fs.length) ≠ 0 := by positivity
    field_simp

/-- C6 witness: the amended claim at the exemplar literal `22.8376378316913383`. -/
theorem claim_C6_witness :
    (∀ c ∈ ['2', '2'], isDigitCh c = true) ∧
    parseNumber (['2', '2'] ++ '.' :: ("8376378316913383".data ++ [])) =
      some (((digitsToNat (['2', '2'] ++ "8376378316913383".data) : Int),
             -(("8376378316913383".data).length : Int)), []) :=
  ⟨by decide,
   (claim_C6_amended ['2', '2'] "8376378316913383".data []
     (by decide) (by decide) (by decide) (by decide) (by decide) (by decide)
     (by decide)).1⟩

/-- C4 witness: two pre-registered channels, one successful attempt. -/
theorem claim_C4_witness :
    ((([("a", 1), ("b", 2)] : List (String × Nat)).map Prod.fst).Nodup) ∧
    (∃ pre post,
      (runModel "k" "s" (fun _ _ => false)
        [{ time := 0, auth := .reply loggedInMsg, msgs := [],
           ending := .serverClosed }]
        (addPendingAll [("a", 1), ("b", 2)] initClient)).2.2 = pre ++ post ∧
      pre.filter isSentEvt =
        ([("a", 1), ("b", 2)] : List (String × Nat)).map
          (fun p => Event.sent (SUBSCRIBE p.1)) ∧
      (∀ ev ∈ pre, isInvokedEvt ev = false) ∧
      (∀ ev ∈ post, isSentEvt ev = false)) :=
  ⟨by decide,
   claim_C4 [("a", 1), ("b", 2)] (by decide) "k" "s" (fun _ _ => false) 0 []
     .serverClosed⟩

/-! ## C8: the login frame (wire bytes, parse-back, and digest shape) -/

theorem string_eq_of_data (x y : String) (h : x.data = y.data) : x = y := by
  cases x
  cases y
  exact congrArg String.mk h

theorem wordBytes_lt (w : Nat) : ∀ b ∈ wordBytes w, b < 256 := by
  intro b hb
  simp only [wordBytes, List.mem_cons, List.not_mem_nil, or_false] at hb
  rcases hb with rfl | rfl | rfl | rfl <;> exact Nat.mod_lt _ (by norm_num)

theorem digestBytes_lt (s : Sha8) : ∀ b ∈ digestBytes s, b < 256 := by
  intro b hb
  simp only [digestBytes, List.mem_append] at hb
  rcases hb with ((((((h | h) | h) | h) | h) | h) | h) | h <;>
    exact wordBytes_lt _ b h

theorem digestBytes_length (s : Sha8) : (digestBytes s).length = 32 := by
  simp [digestBytes, wordBytes]

theorem sha256_length (m : List Nat) : (sha256 m).length = 32 :=
  digestBytes_length _

theorem sha256_lt (m : List Nat) : ∀ b ∈ sha256 m, b < 256 :=
  digestBytes_lt _

theorem hexChar_mem (n : Nat) (h : n < 16) : hexChar n ∈ lowerHexChars := by
  interval_cases n <;> decide

theorem bytesToHex_length (bs : List Nat) :
    (bytesToHex bs).length = 2 * bs.length := by
  induction bs with
  | nil => rfl
  | cons b rest ih =>
    show (hexByte b ++ bytesToHex rest).length = 2 * (b :: rest).length
    rw [List.length_append, ih]
    simp [hexByte]
    omega

theorem bytesToHex_mem (bs : List Nat) (h : ∀ b ∈ bs, b < 256) :
    ∀ c ∈ bytesToHex bs, c ∈ lowerHexChars := by
  induction bs with
  | nil => simp [bytesToHex]
  | cons b rest ih =>
    intro c hc
    have hb : b < 256 := h b (by simp)
    rw [show bytesToHex (b :: rest) = hexByte b ++ bytesToHex rest from rfl] at hc
    rcases List.mem_append.mp hc with hc | hc
    · simp only [hexByte, List.mem_cons, List.not_mem_nil, or_false] at hc
      rcases hc with rfl | rfl
      · exact hexChar_mem _ ((Nat.div_lt_iff_lt_mul (by norm_num)).mpr (by omega))
      · exact hexChar_mem _ (Nat.mod_lt _ (by norm_num))
    · exact ih (fun x hx => h x (by simp [hx])) c hc

theorem hmacHex_length (secret msg : String) :
    (hmacSha256Hex secret msg).length = 64 := by
  show (String.mk (bytesToHex (hmacSha256 (strBytes secret) (strBytes msg)))).length = 64
  simp only [String.length, bytesToHex_length, hmacSha256]
  rw [sha256_length]

theorem hmacHex_mem (secret msg : String) :
    ∀ c ∈ (hmacSha256Hex secret msg).data, c ∈ lowerHexChars := by
  intro c hc
  exact bytesToHex_mem _ (sha256_lt _) c hc

theorem lowerHex_safe (c : Char) (h : c ∈ lowerHexChars) : safeChar c = true := by
  have hall : lowerHexChars.all safeChar = true := by decide
  exact List.all_eq_true.mp hall c h

theorem natDigitsAux_digits (fuel : Nat) :
    ∀ (n : Nat) (acc : List Char), (∀ c ∈ acc, isDigitCh c = true) →
      ∀ c ∈ natDigitsAux fuel n acc, isDigitCh c = true := by
  induction fuel with
  | zero =>
    intro n acc hacc c hc
    simp only [natDigitsAux] at hc
    exact hacc c hc
  | succ fuel ih =>
    intro n acc hacc c hc
    cases n with
    | zero =>
      simp only [natDigitsAux] at hc
      exact hacc c hc
    | succ n' =>
      simp only [natDigitsAux] at hc
      refine ih _ _ ?_ c hc
      intro x hx
      rcases List.mem_cons.mp hx with rfl | hx
      · have hm : (n' + 1) % 10 < 10 := Nat.mod_lt _ (by norm_num)
        set k := (n' + 1) % 10 with hk
        interval_cases k <;> decide
      · exact hacc x hx

theorem pyStr_digits (n : Nat) : ∀ c ∈ (pyStr n).data, isDigitCh c = true := by
  unfold pyStr
  by_cases h : n = 0
  · simp [h]
    decide
  · simp only [h, if_false]
    exact natDigitsAux_digits n n [] (by simp)

theorem digit_safe (c : Char) (h : isDigitCh c = true) : safeChar c = true := by
  simp only [isDigitCh, decide_eq_true_eq] at h
  obtain ⟨h1, h2⟩ := h
  have h1' : 48 ≤ c.toNat := h1
  have h2' : c.toNat ≤ 57 := h2
  simp only [safeChar, decide_eq_true_eq]
  refine ⟨by omega, by omega, ?_, ?_⟩
  · intro hq
    subst hq
    exact absurd h1' (by decide)
  · intro hq
    subst hq
    exact absurd h2' (by decide)

theorem safe_esc (c : Char) (h : safeChar c = true) : pyEscChar c = [c] := by
  simp only [safeChar, decide_eq_true_eq] at h
  obtain ⟨h32, h127, hq, hb⟩ := h
  unfold pyEscChar
  rw [if_neg hq, if_neg hb, if_neg ?hn, if_neg ?ht, if_neg ?hr, if_neg ?hb8,
    if_neg ?hf, if_neg ?hlast]
  case hn =>
    intro he
    subst he
    exact absurd h32 (by decide)
  case ht =>
    intro he
    subst he
    exact absurd h32 (by decide)
  case hr => intro he; omega
  case hb8 => intro he; omega
  case hf => intro he; omega
  case hlast => rintro (hl | hg) <;> omega

theorem dumpString_safe (s : String) (h : ∀ c ∈ s.data, safeChar c = true) :
    dumpString s = '"' :: (s.data ++ ['"']) := by
  have key : ∀ l : List Char, (∀ c ∈ l, safeChar c = true) →
      l.foldr (fun c acc => pyEscChar c ++ acc) ['"'] = l ++ ['"'] := by
    intro l
    induction l with
    | nil => intro _; rfl
    | cons c cs ih =>
      intro hl
      rw [List.foldr_cons, safe_esc c (hl c (by simp)),
        ih (fun x hx => hl x (by simp [hx]))]
      rfl
  unfold dumpString
  rw [key s.data h]

theorem parseStringBody_safe (cs r : List Char)
    (h : ∀ c ∈ cs, safeChar c = true) :
    parseStringBody (cs ++ '"' :: r) = some (cs, r) := by
  induction cs with
  | nil => rfl
  | cons c cs' ih =>
    have hc := h c (by simp)
    simp only [safeChar, decide_eq_true_eq] at hc
    obtain ⟨h32, h127, hq, hb⟩ := hc
    rw [List.cons_append]
    unfold parseStringBody
    split
    case _ heq => exact absurd heq (by simp)
    case _ rest heq =>
      rw [List.cons.injEq] at heq
      exact absurd heq.1 hq
    case _ h1 h2 h3 h4 rest heq =>
      rw [List.cons.injEq] at heq
      exact absurd heq.1 hb
    case _ e rest heq =>
      rw [List.cons.injEq] at heq
      exact absurd heq.1 hb
    case _ c2 rest heq =>
      rw [List.cons.injEq] at heq
      obtain ⟨rfl, rfl⟩ := heq
      rw [if_neg (by omega)]
      rw [ih (fun x hx => h x (by simp [hx]))]
      rfl

theorem auth_message_data (key secret : String) (ms : Nat)
    (hk : strSafe key = true) :
    (auth_message key secret ms).data =
      '\x7b' :: '"' :: 'o' :: 'p' :: '"' :: ':' :: ' ' :: '"' :: 'l' :: 'o' ::
      'g' :: 'i' :: 'n' :: '"' :: ',' :: ' ' :: '"' :: 'a' :: 'r' :: 'g' ::
      's' :: '"' :: ':' :: ' ' :: '\x7b' :: '"' :: 'k' :: 'e' :: 'y' :: '"' ::
      ':' :: ' ' :: '"' ::
      (key.data ++ '"' :: ',' :: ' ' :: '"' :: 't' :: 'i' :: 'm' :: 'e' ::
        '"' :: ':' :: ' ' :: '"' ::
        ((pyStr ms).data ++ '"' :: ',' :: ' ' :: '"' :: 's' :: 'i' :: 'g' ::
          'n' :: '"' :: ':' :: ' ' :: '"' ::
          ((hmacSha256Hex secret (pyStr ms ++ LOGIN_STR)).data ++
            '"' :: '\x7d' :: '\x7d' :: []))) := by
  have hkd : ∀ c ∈ key.data, safeChar c = true := by
    intro c hc
    exact List.all_eq_true.mp hk c hc
  have htd : ∀ c ∈ (pyStr ms).data, safeChar c = true :=
    fun c hc => digit_safe c (pyStr_digits ms c hc)
  have hsd : ∀ c ∈ (hmacSha256Hex secret (pyStr ms ++ LOGIN_STR)).data,
      safeChar c = true :=
    fun c hc => lowerHex_safe c (hmacHex_mem _ _ c hc)
  show dumpJson (.obj [("op", .str "login"),
      ("args", .obj [("key", .str key), ("time", .str (pyStr ms)),
        ("sign", .str (hmacSha256Hex secret (pyStr ms ++ LOGIN_STR)))])]) = _
  simp only [dumpJson, dumpMembers]
  rw [dumpString_safe key hkd, dumpString_safe (pyStr ms) htd,
    dumpString_safe _ hsd]
  rw [show dumpString "op" = ['"', 'o', 'p', '"'] from rfl]
  rw [show dumpString "args" = ['"', 'a', 'r', 'g', 's', '"'] from rfl]
  rw [show dumpString "key" = ['"', 'k', 'e', 'y', '"'] from rfl]
  rw [show dumpString "time" = ['"', 't', 'i', 'm', 'e', '"'] from rfl]
  rw [show dumpString "sign" = ['"', 's', 'i', 'g', 'n', '"'] from rfl]
  rw [show dumpString "login" = ['"', 'l', 'o', 'g', 'i', 'n', '"'] from rfl]
  simp only [List.append_assoc, List.cons_append, List.append_nil,
    List.nil_append]

theorem auth_message_decomp (key secret : String) (ms : Nat)
    (hk : strSafe key = true) :
    auth_message key secret ms =
      "\x7b\"op\": \"login\", \"args\": \x7b\"key\": \"" ++ key ++
      "\", \"time\": \"" ++ pyStr ms ++
      "\", \"sign\": \"" ++ hmacSha256Hex secret (pyStr ms ++ LOGIN_STR) ++
      "\"\x7d\x7d" := by
  apply string_eq_of_data
  rw [auth_message_data key secret ms hk]
  simp only [String.data_append]
  simp only [List.append_assoc, List.cons_append, List.append_nil,
    List.nil_append]

theorem parseCore_val_payload (s : String) (hs : ∀ c ∈ s.data, safeChar c = true)
    (f : Nat) (r : List Char) :
    parseCore (f + 1) .val (' ' :: '"' :: (s.data ++ '"' :: r)) =
      some (.str s, r) := by
  have step : parseCore (f + 1) .val (' ' :: '"' :: (s.data ++ '"' :: r)) =
      (parseStringBody (s.data ++ '"' :: r)).map
        (fun p => (Json.str ⟨p.1⟩, p.2)) := rfl
  rw [step, parseStringBody_safe _ _ hs]
  rfl

theorem parseCore_val_login (f : Nat) (r : List Char) :
    parseCore (f + 1) .val
      (' ' :: '"' :: 'l' :: 'o' :: 'g' :: 'i' :: 'n' :: '"' :: r) =
      some (.str "login", r) := rfl

theorem parseCore_mem_op (f : Nat) (acc : List (String × Json)) (r : List Char) :
    parseCore (f + 2) (.members acc)
      ('"' :: 'o' :: 'p' :: '"' :: ':' :: ' ' :: '"' :: 'l' :: 'o' :: 'g' ::
        'i' :: 'n' :: '"' :: r) =
      parseCore (f + 1) (.afterMember (objInsert acc "op" (.str "login")))
        (skipWs r) := rfl

theorem parseCore_mem_key (k : String)
    (hk : ∀ c ∈ k.data, safeChar c = true) (f : Nat)
    (acc : List (String × Json)) (r : List Char) :
    parseCore (f + 2) (.members acc)
      ('"' :: 'k' :: 'e' :: 'y' :: '"' :: ':' :: ' ' :: '"' ::
        (k.data ++ '"' :: r)) =
      parseCore (f + 1) (.afterMember (objInsert acc "key" (.str k)))
        (skipWs r) := by
  have step : parseCore (f + 2) (.members acc)
      ('"' :: 'k' :: 'e' :: 'y' :: '"' :: ':' :: ' ' :: '"' ::
        (k.data ++ '"' :: r)) =
      (parseCore (f + 1) .val (' ' :: '"' :: (k.data ++ '"' :: r))).bind
        (fun vp => parseCore (f + 1)
          (.afterMember (objInsert acc "key" vp.1)) (skipWs vp.2)) := rfl
  rw [step, parseCore_val_payload k hk f r]
  rfl

theorem parseCore_mem_time (t : String)
    (ht : ∀ c ∈ t.data, safeChar c = true) (f : Nat)
    (acc : List (String × Json)) (r : List Char) :
    parseCore (f + 2) (.members acc)
      ('"' :: 't' :: 'i' :: 'm' :: 'e' :: '"' :: ':' :: ' ' :: '"' ::
        (t.data ++ '"' :: r)) =
      parseCore (f + 1) (.afterMember (objInsert acc "time" (.str t)))
        (skipWs r) := by
  have step : parseCore (f + 2) (.members acc)
      ('"' :: 't' :: 'i' :: 'm' :: 'e' :: '"' :: ':' :: ' ' :: '"' ::
        (t.data ++ '"' :: r)) =
      (parseCore (f + 1) .val (' ' :: '"' :: (t.data ++ '"' :: r))).bind
        (fun vp => parseCore (f + 1)
          (.afterMember (objInsert acc "time" vp.1)) (skipWs vp.2)) := rfl
  rw [step, parseCore_val_payload t ht f r]
  rfl

theorem parseCore_mem_sign (s : String)
    (hs : ∀ c ∈ s.data, safeChar c = true) (f : Nat)
    (acc : List (String × Json)) (r : List Char) :
    parseCore (f + 2) (.members acc)
      ('"' :: 's' :: 'i' :: 'g' :: 'n' :: '"' :: ':' :: ' ' :: '"' ::
        (s.data ++ '"' :: r)) =
      parseCore (f + 1) (.afterMember (objInsert acc "sign" (.str s)))
        (skipWs r) := by
  have step : parseCore (f + 2) (.members acc)
      ('"' :: 's' :: 'i' :: 'g' :: 'n' :: '"' :: ':' :: ' ' :: '"' ::
        (s.data ++ '"' :: r)) =
      (parseCore (f + 1) .val (' ' :: '"' :: (s.data ++ '"' :: r))).bind
        (fun vp => parseCore (f + 1)
          (.afterMember (objInsert acc "sign" vp.1)) (skipWs vp.2)) := rfl
  rw [step, parseCore_val_payload s hs f r]
  rfl

theorem parseCore_mem_args (f : Nat) (acc : List (String × Json))
    (r : List Char) :
    parseCore (f + 2) (.members acc)
      ('"' :: 'a' :: 'r' :: 'g' :: 's' :: '"' :: ':' :: ' ' :: '\x7b' ::
        '"' :: r) =
      (parseCore (f + 1) .val (' ' :: '\x7b' :: '"' :: r)).bind
        (fun vp => parseCore (f + 1)
          (.afterMember (objInsert acc "args" vp.1)) (skipWs vp.2)) := rfl

theorem parseCore_val_objStart (f : Nat) (r : List Char) :
    parseCore (f + 1) .val (' ' :: '\x7b' :: '"' :: r) =
      parseCore f (.members []) ('"' :: r) := rfl

theorem parseCore_val_topObj (f : Nat) (r : List Char) :
    parseCore (f + 1) .val ('\x7b' :: '"' :: r) =
      parseCore f (.members []) ('"' :: r) := rfl

theorem parse_auth_frame (w : Nat) (k t s : String)
    (hkd : ∀ c ∈ k.data, safeChar c = true)
    (htd : ∀ c ∈ t.data, safeChar c = true)
    (hsd : ∀ c ∈ s.data, safeChar c = true) :
    parseCore (w + 11) .val
      ('\x7b' :: '"' :: 'o' :: 'p' :: '"' :: ':' :: ' ' :: '"' :: 'l' :: 'o' ::
       'g' :: 'i' :: 'n' :: '"' :: ',' :: ' ' :: '"' :: 'a' :: 'r' :: 'g' ::
       's' :: '"' :: ':' :: ' ' :: '\x7b' :: '"' :: 'k' :: 'e' :: 'y' :: '"' ::
       ':' :: ' ' :: '"' ::
       (k.data ++ '"' :: ',' :: ' ' :: '"' :: 't' :: 'i' :: 'm' :: 'e' ::
         '"' :: ':' :: ' ' :: '"' ::
         (t.data ++ '"' :: ',' :: ' ' :: '"' :: 's' :: 'i' :: 'g' ::
           'n' :: '"' :: ':' :: ' ' :: '"' ::
           (s.data ++ '"' :: '\x7d' :: '\x7d' :: [])))) =
      some (.obj [("op", .str "login"),
        ("args", .obj [("key", .str k), ("time", .str t),
          ("sign", .str s)])], []) := by
  have h_sign : parseCore (w + 2)
      (.members [("key", Json.str k), ("time", Json.str t)])
      ('"' :: 's' :: 'i' :: 'g' :: 'n' :: '"' :: ':' :: ' ' :: '"' ::
        (s.data ++ '"' :: '\x7d' :: '\x7d' :: [])) =
      some (.obj [("key", .str k), ("time", .str t), ("sign", .str s)],
        '\x7d' :: []) := by
    rw [parseCore_mem_sign s hsd w]
    rfl
  have h_time : parseCore (w + 2 + 2) (.members [("key", Json.str k)])
      ('"' :: 't' :: 'i' :: 'm' :: 'e' :: '"' :: ':' :: ' ' :: '"' ::
        (t.data ++ '"' :: ',' :: ' ' :: '"' :: 's' :: 'i' :: 'g' :: 'n' ::
          '"' :: ':' :: ' ' :: '"' ::
          (s.data ++ '"' :: '\x7d' :: '\x7d' :: []))) =
      some (.obj [("key", .str k), ("time", .str t), ("sign", .str s)],
        '\x7d' :: []) := by
    rw [parseCore_mem_time t htd (w + 2)]
    exact h_sign
  have h_key : parseCore (w + 2 + 2 + 2) (.members [])
      ('"' :: 'k' :: 'e' :: 'y' :: '"' :: ':' :: ' ' :: '"' ::
        (k.data ++ '"' :: ',' :: ' ' :: '"' :: 't' :: 'i' :: 'm' :: 'e' ::
          '"' :: ':' :: ' ' :: '"' ::
          (t.data ++ '"' :: ',' :: ' ' :: '"' :: 's' :: 'i' :: 'g' :: 'n' ::
            '"' :: ':' :: ' ' :: '"' ::
            (s.data ++ '"' :: '\x7d' :: '\x7d' :: [])))) =
      some (.obj [("key", .str k), ("time", .str t), ("sign", .str s)],
        '\x7d' :: []) := by
    rw [parseCore_mem_key k hkd (w + 2 + 2)]
    exact h_time
  have h_args : parseCore (w + 2 + 2 + 2 + 2)
      (.members [("op", Json.str "login")])
      ('"' :: 'a' :: 'r' :: 'g' :: 's' :: '"' :: ':' :: ' ' :: '\x7b' ::
        '"' :: 'k' :: 'e' :: 'y' :: '"' :: ':' :: ' ' :: '"' ::
        (k.data ++ '"' :: ',' :: ' ' :: '"' :: 't' :: 'i' :: 'm' :: 'e' ::
          '"' :: ':' :: ' ' :: '"' ::
          (t.data ++ '"' :: ',' :: ' ' :: '"' :: 's' :: 'i' :: 'g' :: 'n' ::
            '"' :: ':' :: ' ' :: '"' ::
            (s.data ++ '"' :: '\x7d' :: '\x7d' :: [])))) =
      some (.obj [("op", .str "login"),
        ("args", .obj [("key", .str k), ("time", .str t),
          ("sign", .str s)])], []) := by
    rw [parseCore_mem_args (w + 2 + 2 + 2)]
    rw [parseCore_val_objStart (w + 2 + 2 + 2)]
    rw [h_key]
    rfl
  have h_op : parseCore (w + 2 + 2 + 2 + 2 + 2) (.members [])
      ('"' :: 'o' :: 'p' :: '"' :: ':' :: ' ' :: '"' :: 'l' :: 'o' :: 'g' ::
       'i' :: 'n' :: '"' :: ',' :: ' ' :: '"' :: 'a' :: 'r' :: 'g' ::
       's' :: '"' :: ':' :: ' ' :: '\x7b' :: '"' :: 'k' :: 'e' :: 'y' :: '"' ::
       ':' :: ' ' :: '"' ::
       (k.data ++ '"' :: ',' :: ' ' :: '"' :: 't' :: 'i' :: 'm' :: 'e' ::
         '"' :: ':' :: ' ' :: '"' ::
         (t.data ++ '"' :: ',' :: ' ' :: '"' :: 's' :: 'i' :: 'g' ::
           'n' :: '"' :: ':' :: ' ' :: '"' ::
           (s.data ++ '"' :: '\x7d' :: '\x7d' :: [])))) =
      some (.obj [("op", .str "login"),
        ("args", .obj [("key", .str k), ("time", .str t),
          ("sign", .str s)])], []) := by
    rw [parseCore_mem_op (w + 2 + 2 + 2 + 2)]
    exact h_args
  have hF : w + 11 = w + 2 + 2 + 2 + 2 + 2 + 1 := by omega
  rw [hF, parseCore_val_topObj (w + 2 + 2 + 2 + 2 + 2)]
  exact h_op

theorem pyJsonLoads_eq_of_parse (s : String) (j : Json)
    (h : ∀ w, parseCore (w + 11) .val s.data = some (j, []))
    (hlen : 9 ≤ 2 * s.data.length) :
    pyJsonLoads s = some j := by
  unfold pyJsonLoads parseValue
  obtain ⟨w, hw⟩ := Nat.exists_eq_add_of_le
    (show 11 ≤ 2 * s.data.length + 2 by omega)
  rw [hw, Nat.add_comm 11 w, h w]
  rfl

theorem pyJsonLoads_auth (key secret : String) (ms : Nat)
    (hk : strSafe key = true) :
    pyJsonLoads (auth_message key secret ms) =
      some (.obj [("op", .str "login"),
        ("args", .obj [("key", .str key), ("time", .str (pyStr ms)),
          ("sign",
            .str (hmacSha256Hex secret (pyStr ms ++ LOGIN_STR)))])]) := by
  have hkd : ∀ c ∈ key.data, safeChar c = true := by
    intro c hc
    exact List.all_eq_true.mp hk c hc
  have htd : ∀ c ∈ (pyStr ms).data, safeChar c = true :=
    fun c hc => digit_safe c (pyStr_digits ms c hc)
  have hsd : ∀ c ∈ (hmacSha256Hex secret (pyStr ms ++ LOGIN_STR)).data,
      safeChar c = true :=
    fun c hc => lowerHex_safe c (hmacHex_mem _ _ c hc)
  apply pyJsonLoads_eq_of_parse
  · intro w
    rw [auth_message_data key secret ms hk]
    exact parse_auth_frame w key (pyStr ms)
      (hmacSha256Hex secret (pyStr ms ++ LOGIN_STR)) hkd htd hsd
  · rw [auth_message_data key secret ms hk]
    simp only [List.length_cons, List.length_append]
    omega

/-- C8: for every key, secret (including the empty secret) and millisecond
timestamp, the login frame built by the handshake is exactly the JSON
object with op "login" and args holding the key, the decimal
millisecond timestamp as a string, and as sign the lowercase hex digest
of HMAC-SHA256 keyed by the secret over the timestamp string followed by
the fixed purpose string "enclave_ws_login": the wire bytes are the
serialization of that object, and parsing them back with the client's own
JSON semantics recovers it; the digest is 64 lowercase hex characters. -/
theorem claim_C8 (key secret : String) (ms : Nat) (hk : strSafe key = true) :
    LOGIN_STR = "enclave_ws_login" ∧
    auth_message key secret ms =
      "\x7b\"op\": \"login\", \"args\": \x7b\"key\": \"" ++ key ++
      "\", \"time\": \"" ++ pyStr ms ++
      "\", \"sign\": \"" ++ hmacSha256Hex secret (pyStr ms ++ LOGIN_STR) ++
      "\"\x7d\x7d" ∧
    pyJsonLoads (auth_message key secret ms) =
      some (.obj [("op", .str "login"),
        ("args", .obj [("key", .str key), ("time", .str (pyStr ms)),
          ("sign",
            .str (hmacSha256Hex secret (pyStr ms ++ LOGIN_STR)))])]) ∧
    (hmacSha256Hex secret (pyStr ms ++ LOGIN_STR)).length = 64 ∧
    ∀ c ∈ (hmacSha256Hex secret (pyStr ms ++ LOGIN_STR)).data,
      c ∈ lowerHexChars :=
  ⟨rfl, auth_message_decomp key secret ms hk,
    pyJsonLoads_auth key secret ms hk,
    hmacHex_length secret _, hmacHex_mem secret _⟩

theorem claim_C8_witness :
    strSafe "demo-key" = true ∧
    (LOGIN_STR = "enclave_ws_login" ∧
     auth_message "demo-key" "" 1700000000000 =
       "\x7b\"op\": \"login\", \"args\": \x7b\"key\": \"" ++ "demo-key" ++
       "\", \"time\": \"" ++ pyStr 1700000000000 ++
       "\", \"sign\": \"" ++
       hmacSha256Hex "" (pyStr 1700000000000 ++ LOGIN_STR) ++
       "\"\x7d\x7d" ∧
     pyJsonLoads (auth_message "demo-key" "" 1700000000000) =
       some (.obj [("op", .str "login"),
         ("args", .obj [("key", .str "demo-key"),
           ("time", .str (pyStr 1700000000000)),
           ("sign",
             .str (hmacSha256Hex ""
               (pyStr 1700000000000 ++ LOGIN_STR)))])]) ∧
     (hmacSha256Hex "" (pyStr 1700000000000 ++ LOGIN_STR)).length = 64 ∧
     ∀ c ∈ (hmacSha256Hex "" (pyStr 1700000000000 ++ LOGIN_STR)).data,
       c ∈ lowerHexChars) :=
  ⟨by decide, claim_C8 "demo-key" "" 1700000000000 (by decide)⟩

end Enclave
